import Mathlib

/-!
Shallow embedding of the team membership & invitation engine of the
`tts_backend` repository (`models.py`, `routers/teams.py`, `routes/auth.py`).

The database is modelled as lists of rows with explicit id counters and a
logical clock for creation timestamps.  Each SQLAlchemy query is translated
to a `List.find?` / `List.filter` over the row lists; `db.commit()` of an
ORM attribute assignment is translated to mapping the row update over the
list, keyed by the primary-key id.  Errors raised as `HTTPException` are
modelled with `Except`.
-/

namespace TTS

/-- `models.InvitationStatus`: pending / accepted / declined. -/
inductive InvitationStatus where
  | pending
  | accepted
  | declined
deriving DecidableEq, Repr

/-- `models.TeamRole`: owner / member. -/
inductive TeamRole where
  | owner
  | member
deriving DecidableEq, Repr

/-- A row of the `users` table (`models.User`); `hashed_password` holds either
a real hash or the placeholder sentinel string "temporary". -/
structure User where
  id : Nat
  email : Option String := none
  hashed_password : String := ""
  name : Option String := none
  nickname : Option String := none
  country_code : Option String := none
  phone_number : Option String := none
deriving DecidableEq, Repr

/-- A row of the `teams` table (`models.Team`). -/
structure Team where
  id : Nat
  name : String
  description : Option String := none
  owner_id : Nat
  created_at : Nat
deriving DecidableEq, Repr

/-- A row of the `team_members` table (`models.TeamMember`). -/
structure TeamMember where
  id : Nat
  team_id : Nat
  user_id : Nat
  role : TeamRole
  invitation_status : InvitationStatus
  invited_by_id : Option Nat := none
  invited_at : Nat := 0
deriving DecidableEq, Repr

/-- The database state: the three tables, autoincrement counters for primary
keys, and a logical clock supplying creation timestamps. -/
structure DB where
  users : List User := []
  teams : List Team := []
  members : List TeamMember := []
  next_user_id : Nat := 1
  next_team_id : Nat := 1
  next_member_id : Nat := 1
  clock : Nat := 0
deriving DecidableEq, Repr

/-- Python truthiness of an optional string (`if s:`): present and non-empty. -/
def truthy : Option String → Bool
  | none => false
  | some s => s ≠ ""

/-- The Python str.strip function: drop whitespace from both ends, modelled over
the character list (the builtin String.trim is not kernel-reducible). -/
def pyStrip (s : String) : String :=
  ⟨((s.data.dropWhile Char.isWhitespace).reverse.dropWhile Char.isWhitespace).reverse⟩

/-- `s and s.strip()` in the source: the stripped string when the optional
string is present and non-blank, else `none`. -/
def strippedOpt : Option String → Option String
  | none => none
  | some s => if pyStrip s = "" then none else some (pyStrip s)

/-- `db.query(User).filter(User.email == e).first()`. -/
def findUserByEmail (db : DB) (e : String) : Option User :=
  db.users.find? (fun u => u.email = some e)

/-- `db.query(User).filter(User.phone_number == p).first()`. -/
def findUserByPhone (db : DB) (p : String) : Option User :=
  db.users.find? (fun u => u.phone_number = some p)

/-- `db.query(Team).filter(Team.id == tid).first()`. -/
def findTeamById (db : DB) (tid : Nat) : Option Team :=
  db.teams.find? (fun t => t.id = tid)

/-- `db.query(TeamMember).filter(team_id, user_id, invitation_status).first()`. -/
def findMember (db : DB) (tid uid : Nat) (st : InvitationStatus) : Option TeamMember :=
  db.members.find? (fun m => m.team_id = tid ∧ m.user_id = uid ∧ m.invitation_status = st)

/-- One step of the `order_by(Team.created_at).first()` selection. -/
def olderTeam (acc : Option Team) (t : Team) : Option Team :=
  match acc with
  | none => some t
  | some b => if t.created_at < b.created_at then some t else some b

/-- The `order_by(Team.created_at).first()` of a team query: the row with the
least creation timestamp, the earlier row winning ties. -/
def oldestTeam (l : List Team) : Option Team :=
  l.foldl olderTeam none

/-- `db.query(Team).join(TeamMember).filter(user_id == uid, status == ACCEPTED)`:
the teams that hold an ACCEPTED membership row for `uid`. -/
def acceptedTeamsOf (db : DB) (uid : Nat) : List Team :=
  db.teams.filter (fun t =>
    db.members.any (fun m =>
      m.team_id = t.id ∧ m.user_id = uid ∧ m.invitation_status = .accepted))

/-- The default-team query of `get_or_create_default_team`: oldest team in
which the user holds an ACCEPTED membership. -/
def defaultTeamQuery (db : DB) (uid : Nat) : Option Team :=
  oldestTeam (acceptedTeamsOf db uid)

/-- The team name rule of the source: the user name followed by "s Team" when the name is truthy, else "My Team". -/
def defaultTeamName (u : User) : String :=
  match u.name with
  | some n => if n = "" then "My Team" else n ++ "\x27s Team"
  | none => "My Team"

/-- `routers/teams.py get_or_create_default_team`: return the oldest team in
which the user holds an ACCEPTED membership; if none exists, create a team
plus an ACCEPTED OWNER membership row for the user. -/
def get_or_create_default_team (db : DB) (current_user : User) : DB × Team :=
  match defaultTeamQuery db current_user.id with
  | some t => (db, t)
  | none =>
      let t : Team :=
        { id := db.next_team_id
          name := defaultTeamName current_user
          description := some "Default team"
          owner_id := current_user.id
          created_at := db.clock }
      let m : TeamMember :=
        { id := db.next_member_id
          team_id := t.id
          user_id := current_user.id
          role := .owner
          invitation_status := .accepted
          invited_by_id := some current_user.id
          invited_at := db.clock + 1 }
      ({ db with
          teams := db.teams ++ [t]
          members := db.members ++ [m]
          next_team_id := db.next_team_id + 1
          next_member_id := db.next_member_id + 1
          clock := db.clock + 2 }, t)

/-- `schemas.ContactInvite`: one contact of an invitation batch. -/
structure ContactInvite where
  email : Option String := none
  phone_number : Option String := none
  country_code : Option String := none
  team_id : Option Nat := none
deriving DecidableEq, Repr

/-- `if contact.team_id:` — Python truthiness of the optional integer, where
0 is falsy, so `team_id = 0` also selects the default team. -/
def truthyTeamId : Option Nat → Option Nat
  | none => none
  | some t => if t = 0 then none else some t

/-- The outcome of processing one contact of a batch: the database after the
contact, the created membership row if the contact succeeded, and the error
string if it failed. -/
structure ContactOutcome where
  db : DB
  member : Option TeamMember
  error : Option String
deriving DecidableEq, Repr

/-- The placeholder-creation block of `invite_team_members` (lines 182-198):
re-check phone uniqueness across all users, then insert a user row whose
`hashed_password` is the sentinel "temporary" and commit it. -/
def createPlaceholder (db : DB) (contact : ContactInvite) (email : Option String) :
    DB × Except String User :=
  let mkUser : Option String → DB × Except String User := fun phone =>
    let u : User :=
      { id := db.next_user_id
        email := email
        phone_number := phone
        country_code := strippedOpt contact.country_code
        hashed_password := "temporary" }
    ({ db with users := db.users ++ [u], next_user_id := db.next_user_id + 1 }, .ok u)
  match strippedOpt contact.phone_number with
  | some p =>
      match findUserByPhone db p with
      | some _ => (db, .error ("Phone number " ++ (contact.phone_number.getD "")
                    ++ " is already registered with another user"))
      | none => mkUser (some p)
  | none => mkUser none

/-- The team-resolution step of `invite_team_members` (lines 112-134): an
explicit non-zero `team_id` selects that team after a permission check (the
inviter must hold an ACCEPTED membership in it); absent or zero selects the
default team. -/
def resolveTargetTeam (db : DB) (current_user : User) (default_team : Team)
    (contact : ContactInvite) : Except String Team :=
  match truthyTeamId contact.team_id with
  | some tid =>
      match findTeamById db tid with
      | none => .error ("Team with id " ++ toString tid ++ " not found")
      | some team =>
          match findMember db team.id current_user.id .accepted with
          | none => .error ("You don\x27t have permission to invite members to team "
                      ++ toString tid)
          | some _ => .ok team
  | none => .ok default_team

/-- The tail of one processing of one contact (lines 150-216): the two conflict
checks against the target team, run only when the user was found by the
lookup (the `if user:` branch of the source), then the PENDING membership insert.
`fault` models a storage exception raised by the insert, caught by the outer
handler at line 218, whose `db.rollback()` discards only writes not yet
committed. -/
def finishContact (db2 : DB) (current_user user : User) (team : Team)
    (identifier : String) (wasExisting : Bool) (fault : Bool) : ContactOutcome :=
  if wasExisting ∧ (findMember db2 team.id user.id .accepted).isSome then
    ⟨db2, none, some ("Cannot invite " ++ identifier
      ++ " as they are already a member of this team")⟩
  else if wasExisting ∧ (findMember db2 team.id user.id .pending).isSome then
    ⟨db2, none, some ("Cannot invite " ++ identifier
      ++ " as they already have a pending invitation to this team")⟩
  else if fault then
    ⟨db2, none, some ("Failed to process invitation for " ++ identifier
      ++ ": storage failure")⟩
  else
    let m : TeamMember :=
      { id := db2.next_member_id
        team_id := team.id
        user_id := user.id
        role := .member
        invitation_status := .pending
        invited_by_id := some current_user.id
        invited_at := db2.clock }
    ⟨{ db2 with members := db2.members ++ [m],
                next_member_id := db2.next_member_id + 1,
                clock := db2.clock + 1 }, some m, none⟩

/-- The per-contact body of the loop in `invite_team_members`.  The `fault`
flag models the one failure mode of the outer `try/except` that the pure
embedding cannot produce by itself: a storage exception raised by the
membership insert at the end of the contact (after the placeholder user, if
any, was already committed).  The handler appends the per-contact error and
issues `db.rollback()`, which discards only writes not yet committed. -/
def process_contact (db : DB) (current_user : User) (default_team : Team)
    (contact : ContactInvite) (fault : Bool) : ContactOutcome :=
  -- 1. resolve the target team
  match resolveTargetTeam db current_user default_team contact with
  | .error e => ⟨db, none, some e⟩
  | .ok team =>
    -- 2. find or create the user placeholder; the Bool records whether the
    -- user already existed (the `if user:` branch of the source)
    let resolved : DB × Except String (User × String × Bool) :=
      match strippedOpt contact.email with
      | some e =>
          let identifier := contact.email.getD ""
          match findUserByEmail db e with
          | some u => (db, .ok (u, identifier, true))
          | none =>
              match createPlaceholder db contact (some e) with
              | (db2, .error err) => (db2, .error err)
              | (db2, .ok u) => (db2, .ok (u, identifier, false))
      | none =>
          match strippedOpt contact.phone_number with
          | some p =>
              let identifier := contact.phone_number.getD ""
              match findUserByPhone db p with
              | some u => (db, .ok (u, identifier, true))
              | none =>
                  match createPlaceholder db contact none with
                  | (db2, .error err) => (db2, .error err)
                  | (db2, .ok u) => (db2, .ok (u, identifier, false))
          | none => (db, .error "Either email or phone number must be provided")
    match resolved with
    | (db2, .error e) => ⟨db2, none, some e⟩
    | (db2, .ok (user, identifier, wasExisting)) =>
        finishContact db2 current_user user team identifier wasExisting fault

/-- The contact loop of `invite_team_members`: sequential, in input order,
accumulating created rows and error strings. -/
def inviteLoop (current_user : User) (default_team : Team) :
    DB → List ContactInvite → List Bool → DB × List TeamMember × List String
  | db, [], _ => (db, [], [])
  | db, c :: cs, fs =>
      let o := process_contact db current_user default_team c (fs.headD false)
      let r := inviteLoop current_user default_team o.db cs fs.tail
      (r.1, o.member.toList ++ r.2.1, o.error.toList ++ r.2.2)

/-- `schemas.InvitationResponse`: the success payload of the batch. -/
structure InvitationResponse where
  members : List TeamMember
  errors : Option (List String)
deriving DecidableEq, Repr

/-- `routers/teams.py invite_team_members`, with an explicit fault schedule
(one flag per contact, see `process_contact`; the plain entry point passes
all-false).  Bootstraps the default team of the inviter, processes every contact,
and raises HTTP 400 (modelled as `Except.error` carrying the error list)
exactly when no membership was created and at least one error was recorded. -/
def invite_team_members_f (db : DB) (current_user : User)
    (contacts : List ContactInvite) (faults : List Bool) :
    DB × Except (List String) InvitationResponse :=
  let bootstrapped := get_or_create_default_team db current_user
  let r := inviteLoop current_user bootstrapped.2 bootstrapped.1 contacts faults
  if r.2.1 = [] ∧ r.2.2 ≠ [] then
    (r.1, .error r.2.2)
  else
    (r.1, .ok ⟨r.2.1, if r.2.2 = [] then none else some r.2.2⟩)

/-- `routers/teams.py invite_team_members` with no storage faults. -/
def invite_team_members (db : DB) (current_user : User)
    (contacts : List ContactInvite) : DB × Except (List String) InvitationResponse :=
  invite_team_members_f db current_user contacts (contacts.map (fun _ => false))

/-- `routers/teams.py InvitationAction`. -/
inductive InvitationAction where
  | accept
  | decline
deriving DecidableEq, Repr

/-- The status written by a response action. -/
def actionStatus : InvitationAction → InvitationStatus
  | .accept => .accepted
  | .decline => .declined

/-- The single filter of `respond_to_invitation`:
`(id, team_id, user_id, status == PENDING)`. -/
def findInvitation (db : DB) (team_id invitation_id user_id : Nat) : Option TeamMember :=
  db.members.find? (fun m =>
    m.id = invitation_id ∧ m.team_id = team_id ∧ m.user_id = user_id ∧
      m.invitation_status = .pending)

/-- Commit of an ORM attribute assignment on a fetched row: update the row
with that primary key. -/
def updateMemberStatus (db : DB) (mid : Nat) (st : InvitationStatus) : DB :=
  { db with members := db.members.map (fun m =>
      if m.id = mid then { m with invitation_status := st } else m) }

/-- `routers/teams.py respond_to_invitation`: the filter is both the
authorization check and the state guard; on no match raise 404. -/
def respond_to_invitation (db : DB) (team_id invitation_id : Nat)
    (action : InvitationAction) (current_user_id : Nat) : DB × Except String TeamMember :=
  match findInvitation db team_id invitation_id current_user_id with
  | none => (db, .error "Invitation not found or already processed")
  | some inv =>
      let st := actionStatus action
      (updateMemberStatus db inv.id st, .ok { inv with invitation_status := st })

/-- The filter shared by `accept_invitation` and `decline_invitation`:
first PENDING row of the current user. -/
def findFirstPending (db : DB) (user_id : Nat) : Option TeamMember :=
  db.members.find? (fun m => m.user_id = user_id ∧ m.invitation_status = .pending)

/-- `routers/teams.py accept_invitation`: accept the first pending invitation
of the current user, 404 when none exists. -/
def accept_invitation (db : DB) (current_user_id : Nat) : DB × Except String TeamMember :=
  match findFirstPending db current_user_id with
  | none => (db, .error "No pending invitation found")
  | some inv =>
      (updateMemberStatus db inv.id .accepted, .ok { inv with invitation_status := .accepted })

/-- `routers/teams.py decline_invitation`: decline the first pending
invitation of the current user, 404 when none exists. -/
def decline_invitation (db : DB) (current_user_id : Nat) : DB × Except String TeamMember :=
  match findFirstPending db current_user_id with
  | none => (db, .error "No pending invitation found")
  | some inv =>
      (updateMemberStatus db inv.id .declined, .ok { inv with invitation_status := .declined })

/-- `schemas.UserCreate`: the registration input. -/
structure UserCreate where
  email : Option String := none
  name : Option String := none
  nickname : Option String := none
  country_code : Option String := none
  phone_number : Option String := none
  password : String
deriving DecidableEq, Repr

/-- `schemas.TeamInvitationInfo`: one row of the pending-invitations
projection returned by registration. -/
structure TeamInvitationInfo where
  id : Nat
  team_id : Nat
  team_name : String
  invited_by_name : Option String := none
  invited_at : Nat
deriving DecidableEq, Repr

/-- `schemas.RegistrationResponse`. -/
structure RegistrationResponse where
  id : Nat
  email : Option String := none
  name : Option String := none
  nickname : Option String := none
  country_code : Option String := none
  phone_number : Option String := none
  pending_invitations : List TeamInvitationInfo
deriving DecidableEq, Repr

/-- The pending-invitations query of `routes/auth.py register` (lines
144-167): membership rows with status PENDING for the user, inner-joined to
their team, outer-joined to the inviter for the inviter name. -/
def pendingInvitationsFor (db : DB) (uid : Nat) : List TeamInvitationInfo :=
  (db.members.filter (fun m => m.invitation_status = .pending ∧ m.user_id = uid)).filterMap
    (fun m =>
      (db.teams.find? (fun t => t.id = m.team_id)).map (fun t =>
        { id := m.id
          team_id := m.team_id
          team_name := t.name
          invited_by_name :=
            match m.invited_by_id with
            | none => none
            | some ib => (db.users.find? (fun u => u.id = ib)).bind (fun u => u.name)
          invited_at := m.invited_at }))

/-- `db.query(TeamMember).filter(TeamMember.user_id == uid).all()`. -/
def membershipsOf (db : DB) (uid : Nat) : List TeamMember :=
  db.members.filter (fun m => m.user_id = uid)

/-- Commit of the profile update of `register` (lines 113-119) on the
existing user row: every profile field is overwritten from the input and the
credential becomes the hash of the submitted password. -/
def applyRegistration (hash : String → String) (input : UserCreate) (u : User) : User :=
  { u with
      email := input.email
      hashed_password := hash input.password
      name := input.name
      nickname := input.nickname
      country_code := input.country_code
      phone_number := input.phone_number }

/-- The existing-user lookup of `routes/auth.py register` (lines 36-57):
by email first (Python truthiness: skipped when the email is absent or
empty), then by phone only when the email lookup found nothing. -/
def lookupExisting (db : DB) (input : UserCreate) : Option User :=
  match (if truthy input.email then findUserByEmail db (input.email.getD "") else none) with
  | some u => some u
  | none => if truthy input.phone_number then findUserByPhone db (input.phone_number.getD "") else none

/-- `routes/auth.py register`.  `hash` is the external `get_password_hash`
collaborator (opaque to this core, passed as a parameter).  An existing
identity may complete registration only when it has at least one membership
and all its memberships are PENDING, otherwise HTTP 400 "Email already
registered" is raised (modelled as `Except.error`); a fresh identity is
created otherwise, and the response carries the pending-invitations
projection. -/
def register (hash : String → String) (db : DB) (input : UserCreate) :
    DB × Except String RegistrationResponse :=
  let updated : DB × Except String User :=
    match lookupExisting db input with
    | some u =>
        let ms := membershipsOf db u.id
        if ms = [] then
          (db, .error "Email already registered")
        else if ms.any (fun m => m.invitation_status ≠ .pending) then
          (db, .error "Email already registered")
        else
          let u2 := applyRegistration hash input u
          ({ db with users := db.users.map (fun x => if x.id = u.id then u2 else x) }, .ok u2)
    | none =>
        let u : User :=
          { id := db.next_user_id
            email := input.email
            hashed_password := hash input.password
            name := input.name
            nickname := input.nickname
            country_code := input.country_code
            phone_number := input.phone_number }
        ({ db with users := db.users ++ [u], next_user_id := db.next_user_id + 1 }, .ok u)
  match updated with
  | (db2, .error e) => (db2, .error e)
  | (db2, .ok u) =>
      (db2, .ok
        { id := u.id
          email := u.email
          name := u.name
          nickname := u.nickname
          country_code := u.country_code
          phone_number := u.phone_number
          pending_invitations := pendingInvitationsFor db2 u.id })

/-- One operation of the core: the batch invitation, the three responder
endpoints, the default-team bootstrap, and registration. -/
inductive CoreOp where
  | invite (cu : User) (contacts : List ContactInvite) (faults : List Bool)
  | respond (team_id invitation_id : Nat) (action : InvitationAction) (uid : Nat)
  | acceptMine (uid : Nat)
  | declineMine (uid : Nat)
  | getDefault (cu : User)
  | registerOp (hash : String → String) (input : UserCreate)

/-- The state transition of one core operation. -/
def applyOp : CoreOp → DB → DB
  | .invite cu contacts faults, db => (invite_team_members_f db cu contacts faults).1
  | .respond tid iid act uid, db => (respond_to_invitation db tid iid act uid).1
  | .acceptMine uid, db => (accept_invitation db uid).1
  | .declineMine uid, db => (decline_invitation db uid).1
  | .getDefault cu, db => (get_or_create_default_team db cu).1
  | .registerOp hash input, db => (register hash db input).1

/-- The ACCEPTED OWNER membership row written by the default-team bootstrap
(shorthand for the row of `get_or_create_default_team`, lines 43-50). -/
def bootstrapMember (db : DB) (cu : User) : TeamMember :=
  { id := db.next_member_id, team_id := db.next_team_id, user_id := cu.id,
    role := .owner, invitation_status := .accepted, invited_by_id := some cu.id,
    invited_at := db.clock + 1 }

/-- The primary-key discipline of the membership table: ids are below the
autoincrement counter and unique.  (This part of storage well-formedness is
preserved by every core operation.) -/
def DB.memberKeysOk (db : DB) : Prop :=
  (∀ m ∈ db.members, m.id < db.next_member_id) ∧
  (db.members.map TeamMember.id).Nodup

/-- Storage-layer well-formedness: primary keys are below the autoincrement
counters and are unique, and foreign keys of membership rows refer to ids
below the counters. -/
def DB.wf (db : DB) : Prop :=
  (∀ u ∈ db.users, u.id < db.next_user_id) ∧
  (∀ t ∈ db.teams, t.id < db.next_team_id) ∧
  (∀ m ∈ db.members, m.id < db.next_member_id ∧ m.user_id < db.next_user_id ∧
      m.team_id < db.next_team_id) ∧
  (db.users.map User.id).Nodup ∧
  (db.teams.map Team.id).Nodup ∧
  (db.members.map TeamMember.id).Nodup

instance (db : DB) : Decidable db.wf := by
  unfold DB.wf
  infer_instance

instance (db : DB) : Decidable db.memberKeysOk := by
  unfold DB.memberKeysOk
  infer_instance

section Helpers

/-- `find?` returns the designated element when it matches and is the only
element of the list that matches. -/
theorem find?_eq_some_of_unique {α} (p : α → Bool) {l : List α} {a : α}
    (ha : a ∈ l) (hpa : p a) (huniq : ∀ x ∈ l, p x → x = a) : l.find? p = some a := by
  induction l with
  | nil => cases ha
  | cons b t ih =>
      by_cases hb : p b
      · have : b = a := huniq b (List.mem_cons_self b t) hb
        simp [List.find?_cons, hb, this, hpa]
      · simp only [List.find?_cons, hb, cond_false]
        rcases List.mem_cons.1 ha with h | h
        · exact absurd (h ▸ hpa) hb
        · exact ih h (fun x hx hpx => huniq x (List.mem_cons_of_mem _ hx) hpx)

/-- Two membership rows of a table with unique primary keys that share an id
are the same row. -/
theorem member_eq_of_id_eq {l : List TeamMember} (hnd : (l.map TeamMember.id).Nodup)
    {x y : TeamMember} (hx : x ∈ l) (hy : y ∈ l) (h : x.id = y.id) : x = y :=
  List.inj_on_of_nodup_map hnd hx hy h

/-- A team returned by the resolution step is the default team or a stored
team. -/
theorem resolveTargetTeam_ok {db : DB} {cu : User} {dt : Team} {c : ContactInvite}
    {T : Team} (h : resolveTargetTeam db cu dt c = .ok T) : T = dt ∨ T ∈ db.teams := by
  unfold resolveTargetTeam at h
  cases htid : truthyTeamId c.team_id with
  | none => rw [htid] at h; cases h; exact Or.inl rfl
  | some tid =>
      rw [htid] at h
      dsimp only at h
      cases hft : findTeamById db tid with
      | none => rw [hft] at h; cases h
      | some t =>
          rw [hft] at h
          dsimp only at h
          cases hm : findMember db t.id cu.id .accepted with
          | none => rw [hm] at h; cases h
          | some _ =>
              rw [hm] at h
              cases h
              exact Or.inr (List.mem_of_find?_eq_some hft)

/-- Shape of the conflict-check/insert tail of a contact: it appends at most
one membership row, always PENDING, with the fresh primary key, referencing
the resolved team and user. -/
theorem finishContact_shape (db2 : DB) (cu user : User) (team : Team)
    (idf : String) (we f : Bool) :
    ∃ ms, (finishContact db2 cu user team idf we f).db =
        { db2 with members := db2.members ++ ms,
                   next_member_id := db2.next_member_id + ms.length,
                   clock := db2.clock + ms.length } ∧
      ms.length ≤ 1 ∧
      (∀ m ∈ ms, m.id = db2.next_member_id ∧ m.invitation_status = .pending ∧
        m.team_id = team.id ∧ m.user_id = user.id) := by
  unfold finishContact
  split
  · exact ⟨[], by simp, by simp, by simp⟩
  · split
    · exact ⟨[], by simp, by simp, by simp⟩
    · split
      · exact ⟨[], by simp, by simp, by simp⟩
      · refine ⟨[{ id := db2.next_member_id, team_id := team.id, user_id := user.id,
                   role := .member, invitation_status := .pending,
                   invited_by_id := some cu.id, invited_at := db2.clock }], by simp, by simp, ?_⟩
        intro m hm
        rw [List.mem_singleton] at hm
        subst hm
        exact ⟨rfl, rfl, rfl, rfl⟩

/-- Shape of the placeholder-creation block: it either fails leaving the
database unchanged, or appends exactly one user row carrying the sentinel
credential and the fresh primary key. -/
theorem createPlaceholder_shape (db : DB) (c : ContactInvite) (eo : Option String) :
    (∃ err, createPlaceholder db c eo = (db, .error err)) ∨
    (∃ u, createPlaceholder db c eo =
        ({ db with users := db.users ++ [u], next_user_id := db.next_user_id + 1 }, .ok u) ∧
      u.id = db.next_user_id ∧ u.email = eo ∧ u.hashed_password = "temporary") := by
  unfold createPlaceholder
  dsimp only
  cases hp : strippedOpt c.phone_number with
  | none =>
      dsimp only
      exact Or.inr ⟨{ id := db.next_user_id, email := eo, country_code := strippedOpt c.country_code, hashed_password := "temporary" }, rfl, rfl, rfl, rfl⟩
  | some p =>
      dsimp only
      cases hup : findUserByPhone db p with
      | some _ => exact Or.inl ⟨_, rfl⟩
      | none =>
          dsimp only
          exact Or.inr ⟨{ id := db.next_user_id, email := eo, phone_number := some p, country_code := strippedOpt c.country_code, hashed_password := "temporary" }, rfl, rfl, rfl, rfl⟩

/-- Shape of one processing of one contact: at most one user row and one
membership row are appended, the membership row is PENDING with the fresh
primary key, its team is the default team or a stored one, its user is a
stored user or the one appended; teams and the team counter are untouched. -/
theorem process_contact_shape (db : DB) (cu : User) (dt : Team) (c : ContactInvite)
    (f : Bool) :
    ∃ us ms,
      (process_contact db cu dt c f).db =
        { db with users := db.users ++ us,
                  members := db.members ++ ms,
                  next_user_id := db.next_user_id + us.length,
                  next_member_id := db.next_member_id + ms.length,
                  clock := db.clock + ms.length } ∧
      us.length ≤ 1 ∧ ms.length ≤ 1 ∧
      (∀ u ∈ us, u.id = db.next_user_id) ∧
      (∀ m ∈ ms, m.id = db.next_member_id ∧ m.invitation_status = .pending ∧
        (m.team_id = dt.id ∨ ∃ t ∈ db.teams, m.team_id = t.id) ∧
        ((∃ u ∈ db.users, m.user_id = u.id) ∨ ∃ u ∈ us, m.user_id = u.id)) := by
  unfold process_contact
  cases hT : resolveTargetTeam db cu dt c with
  | error err => exact ⟨[], [], by simp, by simp, by simp, by simp, by simp⟩
  | ok T =>
      have hTor := resolveTargetTeam_ok hT
      have hTeam : (m : TeamMember) → m.team_id = T.id →
          m.team_id = dt.id ∨ ∃ t ∈ db.teams, m.team_id = t.id := by
        intro m hm
        rcases hTor with h | h
        · exact Or.inl (h ▸ hm)
        · exact Or.inr ⟨T, h, hm⟩
      dsimp only
      cases he : strippedOpt c.email with
      | some e =>
          dsimp only
          cases hu : findUserByEmail db e with
          | some u =>
              dsimp only
              have humem : u ∈ db.users := List.mem_of_find?_eq_some hu
              obtain ⟨ms, hdb, hlen, hfacts⟩ :=
                finishContact_shape db cu u T (c.email.getD "") true f
              refine ⟨[], ms, ?_, by simp, hlen, by simp, ?_⟩
              · rw [hdb]; simp
              · intro m hm
                obtain ⟨h1, h2, h3, h4⟩ := hfacts m hm
                exact ⟨h1, h2, hTeam m h3, Or.inl ⟨u, humem, h4⟩⟩
          | none =>
              dsimp only
              rcases createPlaceholder_shape db c (some e) with ⟨err, hcp⟩ | ⟨u, hcp, hid, _, _⟩
              · rw [hcp]
                exact ⟨[], [], by simp, by simp, by simp, by simp, by simp⟩
              · rw [hcp]
                dsimp only
                obtain ⟨ms, hdb, hlen, hfacts⟩ :=
                  finishContact_shape { db with users := db.users ++ [u], next_user_id := db.next_user_id + 1 } cu u T (c.email.getD "") false f
                refine ⟨[u], ms, ?_, by simp, hlen, ?_, ?_⟩
                · rw [hdb]; simp
                · intro x hx; rw [List.mem_singleton] at hx; subst hx; exact hid
                · intro m hm
                  obtain ⟨h1, h2, h3, h4⟩ := hfacts m hm
                  exact ⟨h1, h2, hTeam m h3, Or.inr ⟨u, List.mem_singleton_self u, h4⟩⟩
      | none =>
          dsimp only
          cases hp : strippedOpt c.phone_number with
          | some p =>
              dsimp only
              cases hup : findUserByPhone db p with
              | some u =>
                  dsimp only
                  have humem : u ∈ db.users := List.mem_of_find?_eq_some hup
                  obtain ⟨ms, hdb, hlen, hfacts⟩ :=
                    finishContact_shape db cu u T (c.phone_number.getD "") true f
                  refine ⟨[], ms, ?_, by simp, hlen, by simp, ?_⟩
                  · rw [hdb]; simp
                  · intro m hm
                    obtain ⟨h1, h2, h3, h4⟩ := hfacts m hm
                    exact ⟨h1, h2, hTeam m h3, Or.inl ⟨u, humem, h4⟩⟩
              | none =>
                  dsimp only
                  rcases createPlaceholder_shape db c none with ⟨err, hcp⟩ | ⟨u, hcp, hid, _, _⟩
                  · rw [hcp]
                    exact ⟨[], [], by simp, by simp, by simp, by simp, by simp⟩
                  · rw [hcp]
                    dsimp only
                    obtain ⟨ms, hdb, hlen, hfacts⟩ :=
                      finishContact_shape { db with users := db.users ++ [u], next_user_id := db.next_user_id + 1 } cu u T (c.phone_number.getD "") false f
                    refine ⟨[u], ms, ?_, by simp, hlen, ?_, ?_⟩
                    · rw [hdb]; simp
                    · intro x hx; rw [List.mem_singleton] at hx; subst hx; exact hid
                    · intro m hm
                      obtain ⟨h1, h2, h3, h4⟩ := hfacts m hm
                      exact ⟨h1, h2, hTeam m h3, Or.inr ⟨u, List.mem_singleton_self u, h4⟩⟩
          | none => exact ⟨[], [], by simp, by simp, by simp, by simp, by simp⟩

/-- Shape of the whole contact loop: it only appends rows — every user,
team and membership row present before is present after, teams and the team
counter are unchanged, counters never decrease, and every appended
membership row is PENDING with a fresh id. -/
theorem inviteLoop_shape (cu : User) (dt : Team) :
    ∀ (cs : List ContactInvite) (fs : List Bool) (db : DB),
      ∃ US MS,
        (inviteLoop cu dt db cs fs).1.users = db.users ++ US ∧
        (inviteLoop cu dt db cs fs).1.teams = db.teams ∧
        (inviteLoop cu dt db cs fs).1.members = db.members ++ MS ∧
        (inviteLoop cu dt db cs fs).1.next_team_id = db.next_team_id ∧
        db.next_member_id ≤ (inviteLoop cu dt db cs fs).1.next_member_id ∧
        db.next_user_id ≤ (inviteLoop cu dt db cs fs).1.next_user_id ∧
        (∀ m ∈ MS, db.next_member_id ≤ m.id ∧ m.invitation_status = .pending) := by
  intro cs
  induction cs with
  | nil => intro fs db; exact ⟨[], [], by simp [inviteLoop], by simp [inviteLoop],
      by simp [inviteLoop], by simp [inviteLoop], by simp [inviteLoop],
      by simp [inviteLoop], by simp⟩
  | cons c cs ih =>
      intro fs db
      obtain ⟨us, ms, hdb, _, _, _, hms⟩ :=
        process_contact_shape db cu dt c (fs.headD false)
      obtain ⟨US, MS, h1, h2, h3, h4, h5, h6, h7⟩ :=
        ih fs.tail (process_contact db cu dt c (fs.headD false)).db
      refine ⟨us ++ US, ms ++ MS, ?_, ?_, ?_, ?_, ?_, ?_, ?_⟩
      · show (inviteLoop cu dt (process_contact db cu dt c (fs.headD false)).db
          cs fs.tail).1.users = _
        rw [h1, hdb]; simp
      · show (inviteLoop cu dt (process_contact db cu dt c (fs.headD false)).db
          cs fs.tail).1.teams = _
        rw [h2, hdb]
      · show (inviteLoop cu dt (process_contact db cu dt c (fs.headD false)).db
          cs fs.tail).1.members = _
        rw [h3, hdb]; simp
      · show (inviteLoop cu dt (process_contact db cu dt c (fs.headD false)).db
          cs fs.tail).1.next_team_id = _
        rw [h4, hdb]
      · show db.next_member_id ≤ (inviteLoop cu dt
          (process_contact db cu dt c (fs.headD false)).db cs fs.tail).1.next_member_id
        refine le_trans ?_ h5
        rw [hdb]; simp
      · show db.next_user_id ≤ (inviteLoop cu dt
          (process_contact db cu dt c (fs.headD false)).db cs fs.tail).1.next_user_id
        refine le_trans ?_ h6
        rw [hdb]; simp
      · intro m hm
        rcases List.mem_append.1 hm with hm | hm
        · obtain ⟨h1x, h2x, _, _⟩ := hms m hm
          exact ⟨le_of_eq h1x.symm, h2x⟩
        · obtain ⟨h1x, h2x⟩ := h7 m hm
          refine ⟨le_trans ?_ h1x, h2x⟩
          rw [hdb]; simp

/-- A winner of one comparison step is the new candidate or the accumulator. -/
theorem olderTeam_eq_some {acc : Option Team} {t x : Team}
    (h : olderTeam acc t = some x) : x = t ∨ acc = some x := by
  unfold olderTeam at h
  cases acc with
  | none => cases h; exact Or.inl rfl
  | some b =>
      dsimp only at h
      split at h
      · cases h; exact Or.inl rfl
      · cases h; exact Or.inr rfl

/-- The fold keeps the accumulator or picks a list element. -/
theorem foldl_olderTeam_mem : ∀ (l : List Team) (acc : Option Team) (t : Team),
    l.foldl olderTeam acc = some t → acc = some t ∨ t ∈ l := by
  intro l
  induction l with
  | nil => intro acc t h; exact Or.inl h
  | cons b l ih =>
      intro acc t h
      rcases ih (olderTeam acc b) t h with h2 | h2
      · rcases olderTeam_eq_some h2 with h3 | h3
        · exact Or.inr (h3 ▸ List.mem_cons_self b l)
        · exact Or.inl h3
      · exact Or.inr (List.mem_cons_of_mem _ h2)

/-- The `first()` of the ordered team query is a team of the queried list. -/
theorem oldestTeam_mem {l : List Team} {t : Team} (h : oldestTeam l = some t) : t ∈ l := by
  rcases foldl_olderTeam_mem l none t h with h2 | h2
  · cases h2
  · exact h2

/-- The fold never loses a present accumulator. -/
theorem foldl_olderTeam_isSome : ∀ (l : List Team) (acc : Option Team),
    acc.isSome → (l.foldl olderTeam acc).isSome := by
  intro l
  induction l with
  | nil => intro acc h; exact h
  | cons b l ih =>
      intro acc _
      refine ih (olderTeam acc b) ?_
      unfold olderTeam
      cases acc with
      | none => rfl
      | some x =>
          dsimp only
          split <;> rfl

/-- The ordered team query returns nothing exactly on the empty list. -/
theorem oldestTeam_eq_none {l : List Team} : oldestTeam l = none ↔ l = [] := by
  constructor
  · intro h
    cases l with
    | nil => rfl
    | cons b t =>
        exfalso
        have hs := foldl_olderTeam_isSome t (olderTeam none b) (by rfl)
        have h2 : t.foldl olderTeam (olderTeam none b) = none := h
        rw [h2] at hs
        cases hs
  · intro h; subst h; rfl

/-- Shape of the default-team bootstrap: either the query finds a team of
the database and nothing is written, or the query is empty and exactly one
team plus one ACCEPTED OWNER membership row for the user are appended. -/
theorem get_or_create_default_team_shape (db : DB) (cu : User) :
    ((get_or_create_default_team db cu).1 = db ∧
      defaultTeamQuery db cu.id = some (get_or_create_default_team db cu).2 ∧
      (get_or_create_default_team db cu).2 ∈ db.teams) ∨
    (defaultTeamQuery db cu.id = none ∧
      (get_or_create_default_team db cu).2 =
        { id := db.next_team_id, name := defaultTeamName cu,
          description := some "Default team", owner_id := cu.id, created_at := db.clock } ∧
      (get_or_create_default_team db cu).1 =
        { db with
            teams := db.teams ++ [(get_or_create_default_team db cu).2],
            members := db.members ++ [{ id := db.next_member_id,
                                        team_id := db.next_team_id, user_id := cu.id,
                                        role := .owner, invitation_status := .accepted,
                                        invited_by_id := some cu.id,
                                        invited_at := db.clock + 1 }],
            next_team_id := db.next_team_id + 1,
            next_member_id := db.next_member_id + 1,
            clock := db.clock + 2 }) := by
  unfold get_or_create_default_team
  cases hq : defaultTeamQuery db cu.id with
  | some t =>
      dsimp only
      exact Or.inl ⟨rfl, rfl, List.mem_of_mem_filter (oldestTeam_mem hq)⟩
  | none =>
      dsimp only
      exact Or.inr ⟨rfl, rfl, rfl⟩

/-- When the default-team query finds a team, the bootstrap returns it and
writes nothing. -/
theorem get_or_create_found {db : DB} {cu : User} {t : Team}
    (h : defaultTeamQuery db cu.id = some t) :
    get_or_create_default_team db cu = (db, t) := by
  unfold get_or_create_default_team
  rw [h]

/-- Lists of at most one element have no duplicates. -/
theorem nodup_of_length_le_one {α} : ∀ {l : List α}, l.length ≤ 1 → l.Nodup
  | [], _ => List.nodup_nil
  | [a], _ => List.nodup_singleton a
  | _ :: _ :: _, h => by simp at h

/-- One processing of one contact preserves the membership-key discipline. -/
theorem process_contact_memberKeys {db : DB} {cu : User} {dt : Team}
    {c : ContactInvite} {f : Bool} (h : db.memberKeysOk) :
    (process_contact db cu dt c f).db.memberKeysOk := by
  obtain ⟨us, ms, hdb, _, hms_len, _, hms⟩ := process_contact_shape db cu dt c f
  unfold DB.memberKeysOk
  rw [hdb]
  dsimp only
  obtain ⟨hb, hnd⟩ := h
  constructor
  · intro m hm
    rcases List.mem_append.1 hm with hm | hm
    · exact lt_of_lt_of_le (hb m hm) (Nat.le_add_right _ _)
    · have := (hms m hm).1
      have hpos : 0 < ms.length := List.length_pos_of_mem hm
      omega
  · rw [List.map_append]
    rw [List.nodup_append]
    refine ⟨hnd, ?_, ?_⟩
    · exact nodup_of_length_le_one (by simpa using hms_len)
    · intro a ha ha2
      rcases List.mem_map.1 ha with ⟨x, hx, hxa⟩
      rcases List.mem_map.1 ha2 with ⟨y, hy, hya⟩
      have h1 : a < db.next_member_id := hxa ▸ hb x hx
      have h2 : a = db.next_member_id := hya ▸ (hms y hy).1
      omega

/-- The contact loop preserves the membership-key discipline. -/
theorem inviteLoop_memberKeys (cu : User) (dt : Team) :
    ∀ (cs : List ContactInvite) (fs : List Bool) (db : DB), db.memberKeysOk →
      (inviteLoop cu dt db cs fs).1.memberKeysOk := by
  intro cs
  induction cs with
  | nil => intro fs db h; exact h
  | cons c cs ih =>
      intro fs db h
      exact ih fs.tail _ (process_contact_memberKeys h)

/-- The default-team bootstrap preserves the membership-key discipline. -/
theorem get_or_create_default_team_memberKeys {db : DB} {cu : User}
    (h : db.memberKeysOk) : (get_or_create_default_team db cu).1.memberKeysOk := by
  rcases get_or_create_default_team_shape db cu with ⟨hdb, _, _⟩ | ⟨_, _, hdb⟩
  · rw [hdb]; exact h
  · unfold DB.memberKeysOk
    rw [hdb]
    dsimp only
    obtain ⟨hb, hnd⟩ := h
    constructor
    · intro m hm
      rcases List.mem_append.1 hm with hm | hm
      · exact lt_of_lt_of_le (hb m hm) (Nat.le_add_right _ _)
      · rw [List.mem_singleton] at hm
        subst hm
        exact Nat.lt_succ_self _
    · rw [List.map_append, List.nodup_append]
      refine ⟨hnd, List.nodup_singleton _, ?_⟩
      intro a ha ha2
      rcases List.mem_map.1 ha with ⟨x, hx, hxa⟩
      simp only [List.map_cons, List.map_nil, List.mem_singleton] at ha2
      have h1 : a < db.next_member_id := hxa ▸ hb x hx
      omega

/-- The status-update write preserves the ids of membership rows, the members list
length, and the key discipline. -/
theorem updateMemberStatus_memberKeys {db : DB} {mid : Nat} {st : InvitationStatus}
    (h : db.memberKeysOk) : (updateMemberStatus db mid st).memberKeysOk := by
  obtain ⟨hb, hnd⟩ := h
  unfold updateMemberStatus
  constructor
  · intro m hm
    rcases List.mem_map.1 hm with ⟨x, hx, hxm⟩
    have : m.id = x.id := by
      subst hxm
      split <;> rfl
    rw [this]
    exact hb x hx
  · have hmap : (db.members.map (fun m =>
        if m.id = mid then { m with invitation_status := st } else m)).map TeamMember.id =
        db.members.map TeamMember.id := by
      rw [List.map_map]
      refine List.map_congr_left ?_
      intro x _
      show TeamMember.id (if x.id = mid then { x with invitation_status := st } else x) = x.id
      split <;> rfl
    rw [hmap]
    exact hnd

/-- Registration never touches the membership table. -/
theorem register_members_eq (hash : String → String) (db : DB) (input : UserCreate) :
    (register hash db input).1.members = db.members ∧
    (register hash db input).1.next_member_id = db.next_member_id := by
  unfold register
  cases lookupExisting db input with
  | some u =>
      dsimp only
      by_cases h1 : membershipsOf db u.id = []
      · rw [if_pos h1]; exact ⟨rfl, rfl⟩
      · rw [if_neg h1]
        by_cases h2 : (membershipsOf db u.id).any
            (fun m => decide (m.invitation_status ≠ .pending)) = true
        · rw [if_pos h2]; exact ⟨rfl, rfl⟩
        · rw [if_neg h2]; exact ⟨rfl, rfl⟩
  | none => exact ⟨rfl, rfl⟩

/-- Every core operation preserves the membership-key discipline. -/
theorem applyOp_memberKeys (op : CoreOp) (db : DB) (h : db.memberKeysOk) :
    (applyOp op db).memberKeysOk := by
  cases op with
  | invite cu contacts faults =>
      show (invite_team_members_f db cu contacts faults).1.memberKeysOk
      unfold invite_team_members_f
      dsimp only
      have hloop := inviteLoop_memberKeys cu (get_or_create_default_team db cu).2
        contacts faults (get_or_create_default_team db cu).1
        (get_or_create_default_team_memberKeys h)
      split <;> exact hloop
  | respond tid iid act uid =>
      show (respond_to_invitation db tid iid act uid).1.memberKeysOk
      unfold respond_to_invitation
      cases findInvitation db tid iid uid with
      | none => exact h
      | some inv => exact updateMemberStatus_memberKeys h
  | acceptMine uid =>
      show (accept_invitation db uid).1.memberKeysOk
      unfold accept_invitation
      cases findFirstPending db uid with
      | none => exact h
      | some inv => exact updateMemberStatus_memberKeys h
  | declineMine uid =>
      show (decline_invitation db uid).1.memberKeysOk
      unfold decline_invitation
      cases findFirstPending db uid with
      | none => exact h
      | some inv => exact updateMemberStatus_memberKeys h
  | getDefault cu => exact get_or_create_default_team_memberKeys h
  | registerOp hash input =>
      show (register hash db input).1.memberKeysOk
      obtain ⟨h1, h2⟩ := register_members_eq hash db input
      obtain ⟨hb, hnd⟩ := h
      exact ⟨fun m hm => h2 ▸ hb m (h1 ▸ hm), by rw [h1]; exact hnd⟩

/-- Appending rows with fresh ids neither removes nor alters existing rows:
any row of the extended table sharing an id with an old row is that old row. -/
theorem append_members_cases {db : DB} (h : db.memberKeysOk) {MS : List TeamMember}
    (hMS : ∀ m ∈ MS, db.next_member_id ≤ m.id) :
    (∀ m ∈ db.members, m ∈ db.members ++ MS) ∧
    (∀ m ∈ db.members, ∀ m2 ∈ db.members ++ MS, m2.id = m.id → m2 = m) := by
  refine ⟨fun m hm => List.mem_append_left _ hm, ?_⟩
  intro m hm m2 hm2 hid
  rcases List.mem_append.1 hm2 with hm2 | hm2
  · exact member_eq_of_id_eq h.2 hm2 hm hid
  · have h1 := hMS m2 hm2
    have h2 := h.1 m hm
    omega

/-- The members table of a batch call decomposes as the old table plus rows
with fresh ids. -/
theorem invite_members_decomp (db : DB) (cu : User) (contacts : List ContactInvite)
    (faults : List Bool) :
    ∃ MS, (invite_team_members_f db cu contacts faults).1.members = db.members ++ MS ∧
      ∀ m ∈ MS, db.next_member_id ≤ m.id := by
  have hf : (invite_team_members_f db cu contacts faults).1 =
      (inviteLoop cu (get_or_create_default_team db cu).2
        (get_or_create_default_team db cu).1 contacts faults).1 := by
    unfold invite_team_members_f
    dsimp only
    split <;> rfl
  obtain ⟨US, MS, _, _, h3, _, _, _, h7⟩ :=
    inviteLoop_shape cu (get_or_create_default_team db cu).2 contacts faults
      (get_or_create_default_team db cu).1
  rcases get_or_create_default_team_shape db cu with ⟨hdb, _, _⟩ | ⟨_, _, hdb⟩
  · refine ⟨MS, ?_, ?_⟩
    · rw [hf, h3, hdb]
    · intro m hm
      have := (h7 m hm).1
      rw [hdb] at this
      exact this
  · refine ⟨bootstrapMember db cu :: MS, ?_, ?_⟩
    · rw [hf, h3, hdb]
      simp [bootstrapMember]
    · intro m hm
      rcases List.mem_cons.1 hm with hm | hm
      · subst hm
        exact le_refl _
      · have := (h7 m hm).1
        rw [hdb] at this
        dsimp only at this
        omega

/-- The members table of the bootstrap decomposes the same way. -/
theorem bootstrap_members_decomp (db : DB) (cu : User) :
    ∃ MS, (get_or_create_default_team db cu).1.members = db.members ++ MS ∧
      ∀ m ∈ MS, db.next_member_id ≤ m.id := by
  rcases get_or_create_default_team_shape db cu with ⟨hdb, _, _⟩ | ⟨_, _, hdb⟩
  · exact ⟨[], by rw [hdb]; simp, by simp⟩
  · refine ⟨[bootstrapMember db cu], by rw [hdb]; simp [bootstrapMember], ?_⟩
    intro m hm
    rw [List.mem_singleton] at hm
    subst hm
    exact le_refl _

/-- Effect of the status-update write on individual rows: rows other than
the targeted pending one are untouched; the targeted one only changes its
status. -/
theorem updateMemberStatus_cases {db : DB} (h : db.memberKeysOk) {inv : TeamMember}
    (hinv : inv ∈ db.members) (hpend : inv.invitation_status = .pending)
    (st : InvitationStatus) :
    (∀ m ∈ db.members, m.invitation_status ≠ .pending →
      m ∈ (updateMemberStatus db inv.id st).members) ∧
    (∀ m ∈ db.members, ∀ m2 ∈ (updateMemberStatus db inv.id st).members, m2.id = m.id →
      m2 = m ∨ (m.invitation_status = .pending ∧
        m2 = { m with invitation_status := st })) := by
  constructor
  · intro m hm hst
    have hne : ¬ (m.id = inv.id) := by
      intro he
      have : m = inv := member_eq_of_id_eq h.2 hm hinv he
      rw [this] at hst
      exact hst hpend
    refine List.mem_map.2 ⟨m, hm, ?_⟩
    rw [if_neg hne]
  · intro m hm m2 hm2 hid
    rcases List.mem_map.1 hm2 with ⟨x, hx, hxm⟩
    have hxid : x.id = m.id := by
      rw [← hid, ← hxm]
      split <;> rfl
    have hxe : x = m := member_eq_of_id_eq h.2 hx hm hxid
    subst hxe
    by_cases he : x.id = inv.id
    · have : x = inv := member_eq_of_id_eq h.2 hx hinv he
      subst this
      rw [if_pos rfl] at hxm
      exact Or.inr ⟨hpend, hxm.symm⟩
    · rw [if_neg he] at hxm
      exact Or.inl hxm.symm

/-- Single-operation version of the one-way-status property. -/
theorem applyOp_members_step (op : CoreOp) (db : DB) (h : db.memberKeysOk) :
    (∀ m ∈ db.members, m.invitation_status ≠ .pending → m ∈ (applyOp op db).members) ∧
    (∀ m ∈ db.members, ∀ m2 ∈ (applyOp op db).members, m2.id = m.id →
      m2 = m ∨ (m.invitation_status = .pending ∧
        (m2 = { m with invitation_status := .accepted } ∨
         m2 = { m with invitation_status := .declined }))) := by
  cases op with
  | invite cu contacts faults =>
      dsimp only [applyOp]
      obtain ⟨MS, hms, hfresh⟩ := invite_members_decomp db cu contacts faults
      obtain ⟨h1, h2⟩ := append_members_cases h hfresh
      rw [hms]
      exact ⟨fun m hm _ => h1 m hm, fun m hm m2 hm2 hid => Or.inl (h2 m hm m2 hm2 hid)⟩
  | getDefault cu =>
      dsimp only [applyOp]
      obtain ⟨MS, hms, hfresh⟩ := bootstrap_members_decomp db cu
      obtain ⟨h1, h2⟩ := append_members_cases h hfresh
      rw [hms]
      exact ⟨fun m hm _ => h1 m hm, fun m hm m2 hm2 hid => Or.inl (h2 m hm m2 hm2 hid)⟩
  | registerOp hash input =>
      dsimp only [applyOp]
      rw [(register_members_eq hash db input).1]
      exact ⟨fun m hm _ => hm,
        fun m hm m2 hm2 hid => Or.inl (member_eq_of_id_eq h.2 hm2 hm hid)⟩
  | respond tid iid act uid =>
      dsimp only [applyOp]
      unfold respond_to_invitation
      cases hfind : findInvitation db tid iid uid with
      | none =>
          exact ⟨fun m hm _ => hm,
            fun m hm m2 hm2 hid => Or.inl (member_eq_of_id_eq h.2 hm2 hm hid)⟩
      | some inv =>
          have hinv : inv ∈ db.members := List.mem_of_find?_eq_some hfind
          have hpred := List.find?_some hfind
          simp only [decide_eq_true_eq] at hpred
          obtain ⟨c1, c2⟩ := updateMemberStatus_cases h hinv hpred.2.2.2 (actionStatus act)
          refine ⟨c1, ?_⟩
          intro m hm m2 hm2 hid
          rcases c2 m hm m2 hm2 hid with hc | ⟨hp, hc⟩
          · exact Or.inl hc
          · refine Or.inr ⟨hp, ?_⟩
            cases act with
            | accept => exact Or.inl hc
            | decline => exact Or.inr hc
  | acceptMine uid =>
      dsimp only [applyOp]
      unfold accept_invitation
      cases hfind : findFirstPending db uid with
      | none =>
          exact ⟨fun m hm _ => hm,
            fun m hm m2 hm2 hid => Or.inl (member_eq_of_id_eq h.2 hm2 hm hid)⟩
      | some inv =>
          have hinv : inv ∈ db.members := List.mem_of_find?_eq_some hfind
          have hpred := List.find?_some hfind
          simp only [decide_eq_true_eq] at hpred
          obtain ⟨c1, c2⟩ := updateMemberStatus_cases h hinv hpred.2 .accepted
          refine ⟨c1, ?_⟩
          intro m hm m2 hm2 hid
          rcases c2 m hm m2 hm2 hid with hc | ⟨hp, hc⟩
          · exact Or.inl hc
          · exact Or.inr ⟨hp, Or.inl hc⟩
  | declineMine uid =>
      dsimp only [applyOp]
      unfold decline_invitation
      cases hfind : findFirstPending db uid with
      | none =>
          exact ⟨fun m hm _ => hm,
            fun m hm m2 hm2 hid => Or.inl (member_eq_of_id_eq h.2 hm2 hm hid)⟩
      | some inv =>
          have hinv : inv ∈ db.members := List.mem_of_find?_eq_some hfind
          have hpred := List.find?_some hfind
          simp only [decide_eq_true_eq] at hpred
          obtain ⟨c1, c2⟩ := updateMemberStatus_cases h hinv hpred.2 .declined
          refine ⟨c1, ?_⟩
          intro m hm m2 hm2 hid
          rcases c2 m hm m2 hm2 hid with hc | ⟨hp, hc⟩
          · exact Or.inl hc
          · exact Or.inr ⟨hp, Or.inr hc⟩

end Helpers

/-! ### C2: the batch aborts exactly when nothing succeeded and something failed -/

/-- C2.  `invite_team_members` raises `BatchRejected` (HTTP 400 carrying the
error list) exactly when the contact loop inserted zero memberships and
recorded at least one per-contact error; whenever at least one contact
succeeded the call returns the mixed members/errors result and never raises,
for every fault schedule. -/
theorem invite_batch_rejects_iff_no_success (db : DB) (cu : User)
    (contacts : List ContactInvite) (faults : List Bool) :
    ((∃ errs, (invite_team_members_f db cu contacts faults).2 = .error errs) ↔
      ((inviteLoop cu (get_or_create_default_team db cu).2
          (get_or_create_default_team db cu).1 contacts faults).2.1 = [] ∧
       (inviteLoop cu (get_or_create_default_team db cu).2
          (get_or_create_default_team db cu).1 contacts faults).2.2 ≠ [])) ∧
    ((inviteLoop cu (get_or_create_default_team db cu).2
          (get_or_create_default_team db cu).1 contacts faults).2.1 ≠ [] →
      (invite_team_members_f db cu contacts faults).2 =
        .ok { members := (inviteLoop cu (get_or_create_default_team db cu).2
                (get_or_create_default_team db cu).1 contacts faults).2.1,
              errors := if (inviteLoop cu (get_or_create_default_team db cu).2
                  (get_or_create_default_team db cu).1 contacts faults).2.2 = []
                then none
                else some ((inviteLoop cu (get_or_create_default_team db cu).2
                  (get_or_create_default_team db cu).1 contacts faults).2.2) }) := by
  unfold invite_team_members_f
  dsimp only
  split
  · rename_i h
    refine ⟨⟨fun _ => h, fun _ => ⟨_, rfl⟩⟩, fun hc => absurd h.1 hc⟩
  · rename_i h
    refine ⟨⟨?_, fun hc => absurd hc h⟩, fun _ => rfl⟩
    rintro ⟨errs, herr⟩
    simp at herr

/-- Witness for C2 at a concrete input: a one-contact batch that succeeds
returns the mixed result and does not raise. -/
theorem invite_batch_rejects_iff_no_success_witness :
    (invite_team_members_f
        { users := [{ id := 1, email := some "a@x", hashed_password := "h",
                      name := some "A" }], next_user_id := 2 }
        { id := 1, email := some "a@x", hashed_password := "h", name := some "A" }
        [{ email := some "b@x" }] [false]).2 =
      .ok { members := [{ id := 2, team_id := 1, user_id := 2, role := .member,
                          invitation_status := .pending, invited_by_id := some 1,
                          invited_at := 2 }],
            errors := none } := by
  have h := (invite_batch_rejects_iff_no_success
    { users := [{ id := 1, email := some "a@x", hashed_password := "h",
                  name := some "A" }], next_user_id := 2 }
    { id := 1, email := some "a@x", hashed_password := "h", name := some "A" }
    [{ email := some "b@x" }] [false]).2 (by decide)
  rw [h, Except.ok.injEq]
  decide

/-! ### C3: the response filter is both authorization check and state guard -/

/-- C3.  `respond_to_invitation` fails with `NotFoundError` iff the single
filter `(id, team_id, user_id, status = PENDING)` matches no row; for a
PENDING invitation of user A in team T, any responder B ≠ A receives the
same `NotFoundError`, while the call by A itself succeeds and writes the status the
action requests. -/
theorem respond_notfound_iff_filter_empty (db : DB) (tid iid : Nat)
    (act : InvitationAction) (hwf : db.wf) :
    (∀ uid, (respond_to_invitation db tid iid act uid).2 =
        .error "Invitation not found or already processed" ↔
      findInvitation db tid iid uid = none) ∧
    (∀ m ∈ db.members, m.id = iid → m.team_id = tid → m.invitation_status = .pending →
      (∀ b, b ≠ m.user_id → (respond_to_invitation db tid iid act b).2 =
          .error "Invitation not found or already processed") ∧
      (respond_to_invitation db tid iid act m.user_id).2 =
          .ok { m with invitation_status := actionStatus act }) := by
  constructor
  · intro uid
    unfold respond_to_invitation
    constructor
    · intro h
      cases hfind : findInvitation db tid iid uid with
      | none => rfl
      | some m => rw [hfind] at h; cases h
    · intro h
      rw [h]
  · intro m hm hid htid hst
    constructor
    · intro b hb
      unfold respond_to_invitation
      have hnone : findInvitation db tid iid b = none := by
        unfold findInvitation
        rw [List.find?_eq_none]
        intro x hx
        simp only [decide_eq_true_eq, not_and]
        intro hxid hxtid hxuid
        have hxm : x = m := member_eq_of_id_eq hwf.2.2.2.2.2 hx hm (hxid.trans hid.symm)
        subst hxm
        exact absurd hxuid.symm hb
      rw [hnone]
    · unfold respond_to_invitation
      have hsome : findInvitation db tid iid m.user_id = some m := by
        unfold findInvitation
        apply find?_eq_some_of_unique _ hm
        · simp [hid, htid, hst]
        · intro x hx hpx
          simp only [decide_eq_true_eq] at hpx
          exact member_eq_of_id_eq hwf.2.2.2.2.2 hx hm (hpx.1.trans hid.symm)
      rw [hsome]

/-- Witness for C3 at a concrete database: user 2 holds pending invitation 2
in team 1; user 3 cannot respond to it, user 2 can accept it. -/
theorem respond_notfound_iff_filter_empty_witness :
    (respond_to_invitation
        { users := [], teams := [{ id := 1, name := "T", owner_id := 1, created_at := 0 }],
          members := [{ id := 2, team_id := 1, user_id := 2, role := .member,
                        invitation_status := .pending, invited_by_id := some 1,
                        invited_at := 0 }],
          next_user_id := 4, next_team_id := 2, next_member_id := 3, clock := 1 }
        1 2 .accept 3).2 = .error "Invitation not found or already processed" ∧
    (respond_to_invitation
        { users := [], teams := [{ id := 1, name := "T", owner_id := 1, created_at := 0 }],
          members := [{ id := 2, team_id := 1, user_id := 2, role := .member,
                        invitation_status := .pending, invited_by_id := some 1,
                        invited_at := 0 }],
          next_user_id := 4, next_team_id := 2, next_member_id := 3, clock := 1 }
        1 2 .accept 2).2 =
      .ok { id := 2, team_id := 1, user_id := 2, role := .member,
            invitation_status := .accepted, invited_by_id := some 1, invited_at := 0 } := by
  have h := respond_notfound_iff_filter_empty
    { users := [], teams := [{ id := 1, name := "T", owner_id := 1, created_at := 0 }],
      members := [{ id := 2, team_id := 1, user_id := 2, role := .member,
                    invitation_status := .pending, invited_by_id := some 1,
                    invited_at := 0 }],
      next_user_id := 4, next_team_id := 2, next_member_id := 3, clock := 1 }
    1 2 .accept (by decide)
  have h2 := h.2 { id := 2, team_id := 1, user_id := 2, role := .member,
                   invitation_status := .pending, invited_by_id := some 1, invited_at := 0 }
    (by decide) rfl rfl rfl
  exact ⟨h2.1 3 (by decide), h2.2⟩

/-! ### C1: the uniqueness invariant only covers PENDING and ACCEPTED rows -/

/-- Counterexample to C1 as stated.  Starting from a one-user database, the
reachable sequence invite → decline → invite yields a state with TWO
membership rows for the same (team 1, user 2) pair: the conflict checks of
`invite_team_members` only look for ACCEPTED and PENDING rows, so a DECLINED
row does not block a new insertion. -/
theorem invite_after_decline_creates_second_row :
    let cu : User := { id := 1, email := some "a@x", hashed_password := "h", name := some "A" }
    let db0 : DB := { users := [cu], next_user_id := 2 }
    let c : ContactInvite := { email := some "b@x" }
    let db1 := (invite_team_members db0 cu [c]).1
    let db2 := (decline_invitation db1 2).1
    let db3 := (invite_team_members db2 cu [c]).1
    -- before the second invite a DECLINED row exists for (team 1, user 2)
    (∃ m ∈ db2.members, m.team_id = 1 ∧ m.user_id = 2 ∧ m.invitation_status = .declined) ∧
    -- the second invite does not refuse: it returns ok with one created row
    (invite_team_members db2 cu [c]).2.toOption.map (fun r => r.members.length) = some 1 ∧
    (db3.members.filter (fun m => m.team_id = 1 ∧ m.user_id = 2)).length = 2 := by
  decide

/-- C1 as amended.  `invite_team_members` refuses to create a membership for
a contact resolving to an existing user exactly on the conflicts it checks:
whenever a row with status ACCEPTED or PENDING exists for the (team, user)
pair, the contact is skipped with an error and the database is unchanged.
(A DECLINED row does not block, as the counterexample shows.) -/
theorem invite_refuses_on_pending_or_accepted (db : DB) (cu : User) (dt : Team)
    (c : ContactInvite) (f : Bool) (T : Team) (u : User)
    (hteam : resolveTargetTeam db cu dt c = .ok T)
    (hresolve : (∃ e, strippedOpt c.email = some e ∧ findUserByEmail db e = some u) ∨
      (strippedOpt c.email = none ∧
        ∃ p, strippedOpt c.phone_number = some p ∧ findUserByPhone db p = some u))
    (hconf : (findMember db T.id u.id .accepted).isSome ∨
      (findMember db T.id u.id .pending).isSome) :
    (process_contact db cu dt c f).db = db ∧
    (process_contact db cu dt c f).member = none ∧
    (process_contact db cu dt c f).error.isSome := by
  unfold process_contact
  rw [hteam]
  rcases hresolve with ⟨e, he, hu⟩ | ⟨hne, p, hp, hu⟩ <;>
    rcases hacc : findMember db T.id u.id .accepted with _ | m
  · rcases hconf with hconf | hconf
    · rw [hacc] at hconf; cases hconf
    · simp [he, hu, hacc, hconf, finishContact]
  · simp [he, hu, hacc, finishContact]
  · rcases hconf with hconf | hconf
    · rw [hacc] at hconf; cases hconf
    · simp [hne, hp, hu, hacc, hconf, finishContact]
  · simp [hne, hp, hu, hacc, finishContact]

/-- Witness for the amended C1: inviting a user who already holds a PENDING
invitation to the team leaves the database unchanged and records an error. -/
theorem invite_refuses_on_pending_or_accepted_witness :
    (process_contact
        { users := [{ id := 1, email := some "a@x", hashed_password := "h" },
                    { id := 2, email := some "b@x", hashed_password := "temporary" }],
          teams := [{ id := 1, name := "T", owner_id := 1, created_at := 0 }],
          members := [{ id := 1, team_id := 1, user_id := 1, role := .owner,
                        invitation_status := .accepted, invited_by_id := some 1,
                        invited_at := 0 },
                      { id := 2, team_id := 1, user_id := 2, role := .member,
                        invitation_status := .pending, invited_by_id := some 1,
                        invited_at := 1 }],
          next_user_id := 3, next_team_id := 2, next_member_id := 3, clock := 2 }
        { id := 1, email := some "a@x", hashed_password := "h" }
        { id := 1, name := "T", owner_id := 1, created_at := 0 }
        { email := some "b@x" } false).db =
      { users := [{ id := 1, email := some "a@x", hashed_password := "h" },
                  { id := 2, email := some "b@x", hashed_password := "temporary" }],
        teams := [{ id := 1, name := "T", owner_id := 1, created_at := 0 }],
        members := [{ id := 1, team_id := 1, user_id := 1, role := .owner,
                      invitation_status := .accepted, invited_by_id := some 1,
                      invited_at := 0 },
                    { id := 2, team_id := 1, user_id := 2, role := .member,
                      invitation_status := .pending, invited_by_id := some 1,
                      invited_at := 1 }],
        next_user_id := 3, next_team_id := 2, next_member_id := 3, clock := 2 } ∧
    (process_contact
        { users := [{ id := 1, email := some "a@x", hashed_password := "h" },
                    { id := 2, email := some "b@x", hashed_password := "temporary" }],
          teams := [{ id := 1, name := "T", owner_id := 1, created_at := 0 }],
          members := [{ id := 1, team_id := 1, user_id := 1, role := .owner,
                        invitation_status := .accepted, invited_by_id := some 1,
                        invited_at := 0 },
                      { id := 2, team_id := 1, user_id := 2, role := .member,
                        invitation_status := .pending, invited_by_id := some 1,
                        invited_at := 1 }],
          next_user_id := 3, next_team_id := 2, next_member_id := 3, clock := 2 }
        { id := 1, email := some "a@x", hashed_password := "h" }
        { id := 1, name := "T", owner_id := 1, created_at := 0 }
        { email := some "b@x" } false).member = none := by
  have h := invite_refuses_on_pending_or_accepted
    { users := [{ id := 1, email := some "a@x", hashed_password := "h" },
                { id := 2, email := some "b@x", hashed_password := "temporary" }],
      teams := [{ id := 1, name := "T", owner_id := 1, created_at := 0 }],
      members := [{ id := 1, team_id := 1, user_id := 1, role := .owner,
                    invitation_status := .accepted, invited_by_id := some 1,
                    invited_at := 0 },
                  { id := 2, team_id := 1, user_id := 2, role := .member,
                    invitation_status := .pending, invited_by_id := some 1,
                    invited_at := 1 }],
      next_user_id := 3, next_team_id := 2, next_member_id := 3, clock := 2 }
    { id := 1, email := some "a@x", hashed_password := "h" }
    { id := 1, name := "T", owner_id := 1, created_at := 0 }
    { email := some "b@x" } false
    { id := 1, name := "T", owner_id := 1, created_at := 0 }
    { id := 2, email := some "b@x", hashed_password := "temporary" }
    (by rfl)
    (Or.inl ⟨"b@x", by decide, by decide⟩)
    (Or.inr (by decide))
  exact ⟨h.1, h.2.1⟩

/-! ### C8: with both identifiers present, resolution uses only the email -/

/-- C8.  For a contact whose (stripped) email resolves to an existing user,
processing is entirely independent of the phone number of the contact — the phone
is never looked up, even if it belongs to a different identity, and no
conflict error is recorded for the divergence — and any membership row the
contact creates references the identity found by email. -/
theorem email_resolution_ignores_phone (db : DB) (cu : User) (dt : Team)
    (c : ContactInvite) (f : Bool) (e : String) (u : User) (p2 : Option String)
    (he : strippedOpt c.email = some e)
    (hu : findUserByEmail db e = some u) :
    process_contact db cu dt c f = process_contact db cu dt { c with phone_number := p2 } f ∧
    (∀ m, (process_contact db cu dt c f).member = some m → m.user_id = u.id) := by
  constructor
  · have hT : resolveTargetTeam db cu dt { c with phone_number := p2 } =
      resolveTargetTeam db cu dt c := rfl
    unfold process_contact
    rw [hT]
    cases hR : resolveTargetTeam db cu dt c with
    | error err => rfl
    | ok T =>
        dsimp only
        rw [he]
        dsimp only
        rw [hu]
  · intro m hm
    unfold process_contact at hm
    cases hR : resolveTargetTeam db cu dt c with
    | error err => rw [hR] at hm; cases hm
    | ok T =>
        rw [hR] at hm
        dsimp only at hm
        rw [he] at hm
        dsimp only at hm
        rw [hu] at hm
        dsimp only at hm
        unfold finishContact at hm
        split at hm
        · cases hm
        · split at hm
          · cases hm
          · split at hm
            · cases hm
            · rw [Option.some.injEq] at hm
              subst hm
              rfl

/-- Witness for C8: the contact has both an email resolving to user 2 and a
phone number belonging to user 3; processing equals processing with the
phone removed, and the created row references user 2. -/
theorem email_resolution_ignores_phone_witness :
    process_contact
        { users := [{ id := 1, email := some "a@x", hashed_password := "h" },
                    { id := 2, email := some "b@x", hashed_password := "h2" },
                    { id := 3, email := some "c@x", hashed_password := "h3",
                      phone_number := some "555" }],
          teams := [{ id := 1, name := "T", owner_id := 1, created_at := 0 }],
          members := [{ id := 1, team_id := 1, user_id := 1, role := .owner,
                        invitation_status := .accepted, invited_by_id := some 1,
                        invited_at := 0 }],
          next_user_id := 4, next_team_id := 2, next_member_id := 2, clock := 1 }
        { id := 1, email := some "a@x", hashed_password := "h" }
        { id := 1, name := "T", owner_id := 1, created_at := 0 }
        { email := some "b@x", phone_number := some "555" } false =
      process_contact
        { users := [{ id := 1, email := some "a@x", hashed_password := "h" },
                    { id := 2, email := some "b@x", hashed_password := "h2" },
                    { id := 3, email := some "c@x", hashed_password := "h3",
                      phone_number := some "555" }],
          teams := [{ id := 1, name := "T", owner_id := 1, created_at := 0 }],
          members := [{ id := 1, team_id := 1, user_id := 1, role := .owner,
                        invitation_status := .accepted, invited_by_id := some 1,
                        invited_at := 0 }],
          next_user_id := 4, next_team_id := 2, next_member_id := 2, clock := 1 }
        { id := 1, email := some "a@x", hashed_password := "h" }
        { id := 1, name := "T", owner_id := 1, created_at := 0 }
        { email := some "b@x", phone_number := none } false ∧
    (∀ m, (process_contact
        { users := [{ id := 1, email := some "a@x", hashed_password := "h" },
                    { id := 2, email := some "b@x", hashed_password := "h2" },
                    { id := 3, email := some "c@x", hashed_password := "h3",
                      phone_number := some "555" }],
          teams := [{ id := 1, name := "T", owner_id := 1, created_at := 0 }],
          members := [{ id := 1, team_id := 1, user_id := 1, role := .owner,
                        invitation_status := .accepted, invited_by_id := some 1,
                        invited_at := 0 }],
          next_user_id := 4, next_team_id := 2, next_member_id := 2, clock := 1 }
        { id := 1, email := some "a@x", hashed_password := "h" }
        { id := 1, name := "T", owner_id := 1, created_at := 0 }
        { email := some "b@x", phone_number := some "555" } false).member = some m →
      m.user_id = 2) :=
  email_resolution_ignores_phone
    { users := [{ id := 1, email := some "a@x", hashed_password := "h" },
                { id := 2, email := some "b@x", hashed_password := "h2" },
                { id := 3, email := some "c@x", hashed_password := "h3",
                  phone_number := some "555" }],
      teams := [{ id := 1, name := "T", owner_id := 1, created_at := 0 }],
      members := [{ id := 1, team_id := 1, user_id := 1, role := .owner,
                    invitation_status := .accepted, invited_by_id := some 1,
                    invited_at := 0 }],
      next_user_id := 4, next_team_id := 2, next_member_id := 2, clock := 1 }
    { id := 1, email := some "a@x", hashed_password := "h" }
    { id := 1, name := "T", owner_id := 1, created_at := 0 }
    { email := some "b@x", phone_number := some "555" } false "b@x"
    { id := 2, email := some "b@x", hashed_password := "h2" } none
    (by decide) (by decide)

/-! ### C9: registration over an existing identity requires all-pending memberships -/

/-- C9.  When the registration lookup (email first, then phone) matches an
existing identity, registration succeeds — updating that identity and its
credential and profile in place — precisely when the identity has at least
one membership and every one of its memberships is PENDING; when it has no
memberships, or any ACCEPTED or DECLINED membership, registration fails with
"Email already registered" and the database is unchanged. -/
theorem register_existing_only_when_all_pending (hash : String → String) (db : DB)
    (input : UserCreate) (u : User)
    (hfound : lookupExisting db input = some u) :
    ((membershipsOf db u.id ≠ [] ∧
        ∀ m ∈ membershipsOf db u.id, m.invitation_status = .pending) →
      ∃ resp, (register hash db input).2 = .ok resp ∧ resp.id = u.id ∧
        (register hash db input).1 =
          { db with users := (db.users.map
              (fun x => if x.id = u.id then applyRegistration hash input u else x)) }) ∧
    ((membershipsOf db u.id = [] ∨
        ∃ m ∈ membershipsOf db u.id, m.invitation_status ≠ .pending) →
      (register hash db input).2 = .error "Email already registered" ∧
      (register hash db input).1 = db) := by
  unfold register
  rw [hfound]
  dsimp only
  constructor
  · rintro ⟨hne, hall⟩
    have hnotany : ¬ ((membershipsOf db u.id).any
        (fun m => decide (m.invitation_status ≠ .pending)) = true) := by
      simp only [List.any_eq_true, decide_eq_true_eq, not_exists, not_and, not_not]
      exact hall
    rw [if_neg hne, if_neg hnotany]
    exact ⟨_, rfl, rfl, rfl⟩
  · rintro (hempty | ⟨m, hm, hst⟩)
    · rw [if_pos hempty]
      exact ⟨rfl, rfl⟩
    · have hany : (membershipsOf db u.id).any
          (fun m => decide (m.invitation_status ≠ .pending)) = true := by
        simp only [List.any_eq_true, decide_eq_true_eq]
        exact ⟨m, hm, hst⟩
      by_cases hempty : membershipsOf db u.id = []
      · rw [if_pos hempty]
        exact ⟨rfl, rfl⟩
      · rw [if_neg hempty, if_pos hany]
        exact ⟨rfl, rfl⟩

/-- Witness for C9: identity 2 with one PENDING membership completes
registration in place; identity 3 with an ACCEPTED membership is rejected
with "Email already registered" and the database is untouched. -/
theorem register_existing_only_when_all_pending_witness :
    (∃ resp, (register (fun p => "hashed:" ++ p)
        { users := [{ id := 2, email := some "b@x", hashed_password := "temporary" }],
          teams := [{ id := 1, name := "T", owner_id := 1, created_at := 0 }],
          members := [{ id := 2, team_id := 1, user_id := 2, role := .member,
                        invitation_status := .pending, invited_by_id := some 1,
                        invited_at := 0 }],
          next_user_id := 3, next_team_id := 2, next_member_id := 3, clock := 1 }
        { email := some "b@x", password := "pw" }).2 = .ok resp ∧ resp.id = 2 ∧
      (register (fun p => "hashed:" ++ p)
        { users := [{ id := 2, email := some "b@x", hashed_password := "temporary" }],
          teams := [{ id := 1, name := "T", owner_id := 1, created_at := 0 }],
          members := [{ id := 2, team_id := 1, user_id := 2, role := .member,
                        invitation_status := .pending, invited_by_id := some 1,
                        invited_at := 0 }],
          next_user_id := 3, next_team_id := 2, next_member_id := 3, clock := 1 }
        { email := some "b@x", password := "pw" }).1 =
        { users := [{ id := 2, email := some "b@x", hashed_password := "hashed:pw" }],
          teams := [{ id := 1, name := "T", owner_id := 1, created_at := 0 }],
          members := [{ id := 2, team_id := 1, user_id := 2, role := .member,
                        invitation_status := .pending, invited_by_id := some 1,
                        invited_at := 0 }],
          next_user_id := 3, next_team_id := 2, next_member_id := 3, clock := 1 }) ∧
    ((register (fun p => "hashed:" ++ p)
        { users := [{ id := 3, email := some "c@x", hashed_password := "h" }],
          teams := [{ id := 1, name := "T", owner_id := 1, created_at := 0 }],
          members := [{ id := 3, team_id := 1, user_id := 3, role := .member,
                        invitation_status := .accepted, invited_by_id := some 1,
                        invited_at := 0 }],
          next_user_id := 4, next_team_id := 2, next_member_id := 4, clock := 1 }
        { email := some "c@x", password := "pw" }).2 = .error "Email already registered" ∧
      (register (fun p => "hashed:" ++ p)
        { users := [{ id := 3, email := some "c@x", hashed_password := "h" }],
          teams := [{ id := 1, name := "T", owner_id := 1, created_at := 0 }],
          members := [{ id := 3, team_id := 1, user_id := 3, role := .member,
                        invitation_status := .accepted, invited_by_id := some 1,
                        invited_at := 0 }],
          next_user_id := 4, next_team_id := 2, next_member_id := 4, clock := 1 }
        { email := some "c@x", password := "pw" }).1 =
        { users := [{ id := 3, email := some "c@x", hashed_password := "h" }],
          teams := [{ id := 1, name := "T", owner_id := 1, created_at := 0 }],
          members := [{ id := 3, team_id := 1, user_id := 3, role := .member,
                        invitation_status := .accepted, invited_by_id := some 1,
                        invited_at := 0 }],
          next_user_id := 4, next_team_id := 2, next_member_id := 4, clock := 1 }) := by
  constructor
  · have h := (register_existing_only_when_all_pending (fun p => "hashed:" ++ p)
      { users := [{ id := 2, email := some "b@x", hashed_password := "temporary" }],
        teams := [{ id := 1, name := "T", owner_id := 1, created_at := 0 }],
        members := [{ id := 2, team_id := 1, user_id := 2, role := .member,
                      invitation_status := .pending, invited_by_id := some 1,
                      invited_at := 0 }],
        next_user_id := 3, next_team_id := 2, next_member_id := 3, clock := 1 }
      { email := some "b@x", password := "pw" }
      { id := 2, email := some "b@x", hashed_password := "temporary" }
      (by decide)).1 ⟨by decide, by decide⟩
    obtain ⟨resp, h1, h2, h3⟩ := h
    exact ⟨resp, h1, h2, h3.trans (by decide)⟩
  · exact (register_existing_only_when_all_pending (fun p => "hashed:" ++ p)
      { users := [{ id := 3, email := some "c@x", hashed_password := "h" }],
        teams := [{ id := 1, name := "T", owner_id := 1, created_at := 0 }],
        members := [{ id := 3, team_id := 1, user_id := 3, role := .member,
                      invitation_status := .accepted, invited_by_id := some 1,
                      invited_at := 0 }],
        next_user_id := 4, next_team_id := 2, next_member_id := 4, clock := 1 }
      { email := some "c@x", password := "pw" }
      { id := 3, email := some "c@x", hashed_password := "h" }
      (by decide)).2 (Or.inr ⟨{ id := 3, team_id := 1, user_id := 3, role := .member,
                                invitation_status := .accepted, invited_by_id := some 1,
                                invited_at := 0 },
                              by decide, by decide⟩)

/-! ### C10: every batch bootstraps the default team of the inviter first -/

/-- C10.  Every `invite_team_members` call bootstraps the inviter default
team before any contact is processed: when the inviter holds no ACCEPTED
membership in any stored team, the call creates a fresh Team owned by the
inviter plus an ACCEPTED OWNER membership row for them — for every contact
list (including the empty one and lists naming explicit team ids) — while
every pre-existing user, team and membership row is carried over unchanged. -/
theorem invite_bootstraps_default_team (db : DB) (cu : User)
    (contacts : List ContactInvite) (faults : List Bool)
    (hnone : defaultTeamQuery db cu.id = none) :
    (∃ t ∈ (invite_team_members_f db cu contacts faults).1.teams,
        t.id = db.next_team_id ∧ t.owner_id = cu.id) ∧
    ({ id := db.next_member_id, team_id := db.next_team_id, user_id := cu.id,
       role := .owner, invitation_status := .accepted, invited_by_id := some cu.id,
       invited_at := db.clock + 1 } : TeamMember) ∈
      (invite_team_members_f db cu contacts faults).1.members ∧
    (∀ m ∈ db.members, m ∈ (invite_team_members_f db cu contacts faults).1.members) ∧
    (∀ t ∈ db.teams, t ∈ (invite_team_members_f db cu contacts faults).1.teams) ∧
    (∀ u ∈ db.users, u ∈ (invite_team_members_f db cu contacts faults).1.users) := by
  have hf : (invite_team_members_f db cu contacts faults).1 =
      (inviteLoop cu (get_or_create_default_team db cu).2
        (get_or_create_default_team db cu).1 contacts faults).1 := by
    unfold invite_team_members_f
    dsimp only
    split <;> rfl
  rcases get_or_create_default_team_shape db cu with ⟨_, hq, _⟩ | ⟨_, ht, hdb1⟩
  · rw [hnone] at hq; cases hq
  · obtain ⟨US, MS, h1, h2, h3, _, _, _, _⟩ :=
      inviteLoop_shape cu (get_or_create_default_team db cu).2
        contacts faults (get_or_create_default_team db cu).1
    rw [hf]
    refine ⟨⟨(get_or_create_default_team db cu).2, ?_, by rw [ht], by rw [ht]⟩, ?_, ?_, ?_, ?_⟩
    · rw [h2, hdb1]
      exact List.mem_append_right _ (List.mem_singleton_self _)
    · rw [h3, hdb1]
      exact List.mem_append_left _ (List.mem_append_right _ (List.mem_singleton_self _))
    · intro m hm
      rw [h3, hdb1]
      exact List.mem_append_left _ (List.mem_append_left _ hm)
    · intro t htm
      rw [h2, hdb1]
      exact List.mem_append_left _ htm
    · intro u hu
      rw [h1, hdb1]
      exact List.mem_append_left _ hu

/-- Witness for C10: with an empty contact list and a fresh inviter, the
call still creates the default team and OWNER membership. -/
theorem invite_bootstraps_default_team_witness :
    (∃ t ∈ (invite_team_members_f
        { users := [{ id := 1, email := some "a@x", hashed_password := "h" }],
          next_user_id := 2 }
        { id := 1, email := some "a@x", hashed_password := "h" } [] []).1.teams,
      t.id = 1 ∧ t.owner_id = 1) ∧
    ({ id := 1, team_id := 1, user_id := 1, role := .owner,
       invitation_status := .accepted, invited_by_id := some 1,
       invited_at := 1 } : TeamMember) ∈
      (invite_team_members_f
        { users := [{ id := 1, email := some "a@x", hashed_password := "h" }],
          next_user_id := 2 }
        { id := 1, email := some "a@x", hashed_password := "h" } [] []).1.members := by
  have h := invite_bootstraps_default_team
    { users := [{ id := 1, email := some "a@x", hashed_password := "h" }],
      next_user_id := 2 }
    { id := 1, email := some "a@x", hashed_password := "h" } [] [] (by decide)
  exact ⟨h.1, h.2.1⟩

/-! ### C5: the default-team bootstrap is idempotent -/

/-- C5.  Calling `get_or_create_default_team` twice in sequence for the same
user with no intervening state change returns the same team both times, and
the second call performs no write at all: the database after the second call
is exactly the database after the first. -/
theorem get_or_create_default_team_idempotent (db : DB) (cu : User) (hwf : db.wf) :
    (get_or_create_default_team (get_or_create_default_team db cu).1 cu).1 =
      (get_or_create_default_team db cu).1 ∧
    (get_or_create_default_team (get_or_create_default_team db cu).1 cu).2 =
      (get_or_create_default_team db cu).2 := by
  rcases get_or_create_default_team_shape db cu with ⟨hdb, hq, _⟩ | ⟨hq, ht, hdb1⟩
  · rw [hdb]
    exact ⟨hdb, rfl⟩
  · have hempty : acceptedTeamsOf db cu.id = [] := by
      unfold defaultTeamQuery at hq
      exact oldestTeam_eq_none.1 hq
    have hnoacc : ∀ t ∈ db.teams,
        ¬ (db.members.any (fun m => decide (m.team_id = t.id ∧ m.user_id = cu.id ∧
            m.invitation_status = InvitationStatus.accepted)) = true) := by
      intro t htm hc
      have hmem : t ∈ acceptedTeamsOf db cu.id := List.mem_filter.2 ⟨htm, hc⟩
      rw [hempty] at hmem
      cases hmem
    have hacc : acceptedTeamsOf (get_or_create_default_team db cu).1 cu.id =
        [(get_or_create_default_team db cu).2] := by
      rw [hdb1]
      unfold acceptedTeamsOf
      dsimp only
      rw [List.filter_append]
      have hfo : db.teams.filter (fun t => (db.members ++
          [({ id := db.next_member_id, team_id := db.next_team_id, user_id := cu.id,
              role := .owner, invitation_status := .accepted, invited_by_id := some cu.id,
              invited_at := db.clock + 1 } : TeamMember)]).any
            (fun m => decide (m.team_id = t.id ∧ m.user_id = cu.id ∧
              m.invitation_status = InvitationStatus.accepted))) = [] := by
        rw [List.filter_eq_nil_iff]
        intro t htm hc
        rw [List.any_append] at hc
        rcases Bool.or_eq_true_iff.1 hc with hc | hc
        · exact hnoacc t htm hc
        · simp only [List.any_cons, List.any_nil, Bool.or_false, decide_eq_true_eq] at hc
          have : t.id < db.next_team_id := hwf.2.1 t htm
          omega
      have hfn : ([(get_or_create_default_team db cu).2]).filter (fun t => (db.members ++
          [({ id := db.next_member_id, team_id := db.next_team_id, user_id := cu.id,
              role := .owner, invitation_status := .accepted, invited_by_id := some cu.id,
              invited_at := db.clock + 1 } : TeamMember)]).any
            (fun m => decide (m.team_id = t.id ∧ m.user_id = cu.id ∧
              m.invitation_status = InvitationStatus.accepted))) =
          [(get_or_create_default_team db cu).2] := by
        rw [List.filter_singleton]
        have hp : ((db.members ++
            [({ id := db.next_member_id, team_id := db.next_team_id, user_id := cu.id,
                role := .owner, invitation_status := .accepted, invited_by_id := some cu.id,
                invited_at := db.clock + 1 } : TeamMember)]).any
              (fun m => decide (m.team_id = (get_or_create_default_team db cu).2.id ∧
                m.user_id = cu.id ∧
                m.invitation_status = InvitationStatus.accepted))) = true := by
          rw [List.any_append]
          refine Bool.or_eq_true_iff.2 (Or.inr ?_)
          simp [ht]
        rw [hp]
        rfl
      rw [hfo, hfn]
      rfl
    have hquery : defaultTeamQuery (get_or_create_default_team db cu).1 cu.id =
        some (get_or_create_default_team db cu).2 := by
      unfold defaultTeamQuery
      rw [hacc]
      rfl
    have hsecond := get_or_create_found hquery
    exact ⟨by rw [hsecond], by rw [hsecond]⟩

/-- Witness for C5 at a concrete database: the first call creates the team,
the second returns it and changes nothing. -/
theorem get_or_create_default_team_idempotent_witness :
    (get_or_create_default_team
        (get_or_create_default_team
          { users := [{ id := 1, email := some "a@x", hashed_password := "h" }],
            next_user_id := 2 }
          { id := 1, email := some "a@x", hashed_password := "h" }).1
        { id := 1, email := some "a@x", hashed_password := "h" }).1 =
      (get_or_create_default_team
        { users := [{ id := 1, email := some "a@x", hashed_password := "h" }],
          next_user_id := 2 }
        { id := 1, email := some "a@x", hashed_password := "h" }).1 ∧
    (get_or_create_default_team
        (get_or_create_default_team
          { users := [{ id := 1, email := some "a@x", hashed_password := "h" }],
            next_user_id := 2 }
          { id := 1, email := some "a@x", hashed_password := "h" }).1
        { id := 1, email := some "a@x", hashed_password := "h" }).2 =
      (get_or_create_default_team
        { users := [{ id := 1, email := some "a@x", hashed_password := "h" }],
          next_user_id := 2 }
        { id := 1, email := some "a@x", hashed_password := "h" }).2 :=
  get_or_create_default_team_idempotent
    { users := [{ id := 1, email := some "a@x", hashed_password := "h" }],
      next_user_id := 2 }
    { id := 1, email := some "a@x", hashed_password := "h" } (by decide)

/-! ### C4: invitation status is one-way -/

/-- C4.  Status transitions are one-way: under the membership-key discipline,
a single core operation maps every stored membership row either to itself or
— only when it was PENDING — to the same row with status ACCEPTED or
DECLINED (so PENDING→ACCEPTED and PENDING→DECLINED are the only transitions,
each possible at most once per row), and no sequence of core operations ever
removes or changes a row whose status is ACCEPTED or DECLINED. -/
theorem invitation_status_one_way :
    (∀ (op : CoreOp) (db : DB), db.memberKeysOk →
      (∀ m ∈ db.members, m.invitation_status ≠ .pending → m ∈ (applyOp op db).members) ∧
      (∀ m ∈ db.members, ∀ m2 ∈ (applyOp op db).members, m2.id = m.id →
        m2 = m ∨ (m.invitation_status = .pending ∧
          (m2 = { m with invitation_status := .accepted } ∨
           m2 = { m with invitation_status := .declined })))) ∧
    (∀ (ops : List CoreOp) (db : DB), db.memberKeysOk →
      ∀ m ∈ db.members, m.invitation_status ≠ .pending →
        m ∈ (ops.foldl (fun d op => applyOp op d) db).members) := by
  refine ⟨applyOp_members_step, ?_⟩
  intro ops
  induction ops with
  | nil => intro db h m hm hst; exact hm
  | cons op ops ih =>
      intro db h m hm hst
      exact ih (applyOp op db) (applyOp_memberKeys op db h) m
        ((applyOp_members_step op db h).1 m hm hst) hst

/-- Witness for C4: an ACCEPTED owner row survives a responder operation and
a two-operation sequence unchanged. -/
theorem invitation_status_one_way_witness :
    ({ id := 1, team_id := 1, user_id := 1, role := .owner,
       invitation_status := .accepted, invited_by_id := some 1,
       invited_at := 0 } : TeamMember) ∈
      (applyOp (CoreOp.acceptMine 2)
        { users := [], teams := [{ id := 1, name := "T", owner_id := 1, created_at := 0 }],
          members := [{ id := 1, team_id := 1, user_id := 1, role := .owner,
                        invitation_status := .accepted, invited_by_id := some 1,
                        invited_at := 0 },
                      { id := 2, team_id := 1, user_id := 2, role := .member,
                        invitation_status := .pending, invited_by_id := some 1,
                        invited_at := 1 }],
          next_user_id := 3, next_team_id := 2, next_member_id := 3, clock := 2 }).members ∧
    ({ id := 1, team_id := 1, user_id := 1, role := .owner,
       invitation_status := .accepted, invited_by_id := some 1,
       invited_at := 0 } : TeamMember) ∈
      (([CoreOp.acceptMine 2, CoreOp.declineMine 5]).foldl (fun d op => applyOp op d)
        { users := [], teams := [{ id := 1, name := "T", owner_id := 1, created_at := 0 }],
          members := [{ id := 1, team_id := 1, user_id := 1, role := .owner,
                        invitation_status := .accepted, invited_by_id := some 1,
                        invited_at := 0 },
                      { id := 2, team_id := 1, user_id := 2, role := .member,
                        invitation_status := .pending, invited_by_id := some 1,
                        invited_at := 1 }],
          next_user_id := 3, next_team_id := 2, next_member_id := 3, clock := 2 }).members :=
  ⟨(invitation_status_one_way.1 (CoreOp.acceptMine 2)
      { users := [], teams := [{ id := 1, name := "T", owner_id := 1, created_at := 0 }],
        members := [{ id := 1, team_id := 1, user_id := 1, role := .owner,
                      invitation_status := .accepted, invited_by_id := some 1,
                      invited_at := 0 },
                    { id := 2, team_id := 1, user_id := 2, role := .member,
                      invitation_status := .pending, invited_by_id := some 1,
                      invited_at := 1 }],
        next_user_id := 3, next_team_id := 2, next_member_id := 3, clock := 2 }
      (by decide)).1 _ (by decide) (by decide),
   invitation_status_one_way.2 [CoreOp.acceptMine 2, CoreOp.declineMine 5]
      { users := [], teams := [{ id := 1, name := "T", owner_id := 1, created_at := 0 }],
        members := [{ id := 1, team_id := 1, user_id := 1, role := .owner,
                      invitation_status := .accepted, invited_by_id := some 1,
                      invited_at := 0 },
                    { id := 2, team_id := 1, user_id := 2, role := .member,
                      invitation_status := .pending, invited_by_id := some 1,
                      invited_at := 1 }],
        next_user_id := 3, next_team_id := 2, next_member_id := 3, clock := 2 }
      (by decide) _ (by decide) (by decide)⟩

/-! ### C7: rollback does not undo the committed placeholder identity -/

/-- Counterexample to C7 as stated.  In a two-contact batch whose first
contact suffers a storage exception at the membership insert (after the
placeholder identity was committed at line 197), the error is caught and the
batch continues — but the failed contact does leave a row behind: the final
database still holds the placeholder user created for it (with the sentinel
credential and no membership row), because `db.rollback()` cannot undo the
earlier commit. -/
theorem failed_contact_leaves_placeholder_behind :
    let cu : User := { id := 1, email := some "a@x", hashed_password := "h", name := some "A" }
    let db0 : DB := { users := [cu], next_user_id := 2 }
    let r := invite_team_members_f db0 cu
      [{ email := some "b@x" }, { email := some "c@x" }] [true, false]
    -- no user with that email existed before the call
    (¬ ∃ u ∈ db0.users, u.email = some "b@x") ∧
    -- the placeholder identity of the failed contact is still there afterwards
    (∃ u ∈ r.1.users, u.email = some "b@x" ∧ u.hashed_password = "temporary" ∧ u.id = 2) ∧
    -- it has no membership row
    (r.1.members.filter (fun m => m.user_id = 2)).length = 0 ∧
    -- the batch continued: the second contact succeeded, one error recorded
    r.2.toOption.map (fun res => (res.members.length, res.errors)) =
      some (1, some ["Failed to process invitation for b@x: storage failure"]) := by
  decide

/-- C7 as amended.  An exception during a contact is caught, recorded as a
per-contact error string, and the loop continues with the next contact with
no membership row inserted; `db.rollback()` discards only writes not yet
committed, so when the failure strikes after the placeholder identity was
committed, that identity remains in the database. -/
theorem fault_after_placeholder_commit (db : DB) (cu : User) (dt : Team)
    (c : ContactInvite) (T : Team) (e : String)
    (hteam : resolveTargetTeam db cu dt c = .ok T)
    (he : strippedOpt c.email = some e)
    (hnew : findUserByEmail db e = none)
    (hph : strippedOpt c.phone_number = none) :
    process_contact db cu dt c true =
      ⟨{ db with
           users := db.users ++ [{ id := db.next_user_id, email := some e, country_code := strippedOpt c.country_code, hashed_password := "temporary" }],
           next_user_id := db.next_user_id + 1 }, none,
       some ("Failed to process invitation for " ++ c.email.getD ""
         ++ ": storage failure")⟩ ∧
    (∀ cs fs, inviteLoop cu dt db (c :: cs) (true :: fs) =
      ((inviteLoop cu dt (process_contact db cu dt c true).db cs fs).1,
       (inviteLoop cu dt (process_contact db cu dt c true).db cs fs).2.1,
       ("Failed to process invitation for " ++ c.email.getD "" ++ ": storage failure") ::
         (inviteLoop cu dt (process_contact db cu dt c true).db cs fs).2.2)) := by
  have hmain : process_contact db cu dt c true =
      ⟨{ db with
           users := db.users ++ [{ id := db.next_user_id, email := some e, country_code := strippedOpt c.country_code, hashed_password := "temporary" }],
           next_user_id := db.next_user_id + 1 }, none,
       some ("Failed to process invitation for " ++ c.email.getD ""
         ++ ": storage failure")⟩ := by
    unfold process_contact
    rw [hteam]
    dsimp only
    rw [he]
    dsimp only
    rw [hnew]
    dsimp only
    unfold createPlaceholder
    dsimp only
    rw [hph]
    dsimp only
    unfold finishContact
    rw [if_neg (by simp), if_neg (by simp), if_pos rfl]
  refine ⟨hmain, ?_⟩
  intro cs fs
  show ((inviteLoop cu dt (process_contact db cu dt c true).db cs fs).1,
      (process_contact db cu dt c true).member.toList ++
        (inviteLoop cu dt (process_contact db cu dt c true).db cs fs).2.1,
      (process_contact db cu dt c true).error.toList ++
        (inviteLoop cu dt (process_contact db cu dt c true).db cs fs).2.2) = _
  rw [hmain]
  rfl

/-- Witness for the amended C7 at a concrete database: the outcome keeps the
committed placeholder and reports the storage failure. -/
theorem fault_after_placeholder_commit_witness :
    process_contact
        { users := [{ id := 1, email := some "a@x", hashed_password := "h" }],
          teams := [{ id := 1, name := "T", owner_id := 1, created_at := 0 }],
          members := [{ id := 1, team_id := 1, user_id := 1, role := .owner,
                        invitation_status := .accepted, invited_by_id := some 1,
                        invited_at := 0 }],
          next_user_id := 2, next_team_id := 2, next_member_id := 2, clock := 1 }
        { id := 1, email := some "a@x", hashed_password := "h" }
        { id := 1, name := "T", owner_id := 1, created_at := 0 }
        { email := some "b@x" } true =
      ⟨{ users := [{ id := 1, email := some "a@x", hashed_password := "h" },
                   { id := 2, email := some "b@x", hashed_password := "temporary" }],
         teams := [{ id := 1, name := "T", owner_id := 1, created_at := 0 }],
         members := [{ id := 1, team_id := 1, user_id := 1, role := .owner,
                       invitation_status := .accepted, invited_by_id := some 1,
                       invited_at := 0 }],
         next_user_id := 3, next_team_id := 2, next_member_id := 2, clock := 1 }, none,
       some "Failed to process invitation for b@x: storage failure"⟩ := by
  have h := (fault_after_placeholder_commit
    { users := [{ id := 1, email := some "a@x", hashed_password := "h" }],
      teams := [{ id := 1, name := "T", owner_id := 1, created_at := 0 }],
      members := [{ id := 1, team_id := 1, user_id := 1, role := .owner,
                    invitation_status := .accepted, invited_by_id := some 1,
                    invited_at := 0 }],
      next_user_id := 2, next_team_id := 2, next_member_id := 2, clock := 1 }
    { id := 1, email := some "a@x", hashed_password := "h" }
    { id := 1, name := "T", owner_id := 1, created_at := 0 }
    { email := some "b@x" }
    { id := 1, name := "T", owner_id := 1, created_at := 0 } "b@x"
    (by rfl) (by decide) (by decide) (by decide)).1
  rw [h]
  decide

/-! ### C6: placeholder identity, then claim by registration -/

/-- C6.  Inviting a brand-new email creates an identity carrying the
unusable credential sentinel "temporary" with no accepted membership and one
pending membership; a subsequent registration with that same email attaches
the real hashed credential to the *same* identity id (the user table is the
old one plus that single updated row — no second identity), and the response
surfaces exactly that pending invitation through the read projection. -/
theorem placeholder_then_claim (hash : String → String) (db : DB) (cu : User)
    (input : UserCreate) (e : String)
    (hwf : db.wf) (hcu : cu ∈ db.users)
    (hstrip : pyStrip e = e) (hne : e ≠ "")
    (hnew : findUserByEmail db e = none)
    (hin : input.email = some e) :
    ∃ u m,
      (invite_team_members db cu [{ email := some e }]).1.users = db.users ++ [u] ∧
      u.id = db.next_user_id ∧ u.email = some e ∧ u.hashed_password = "temporary" ∧
      (invite_team_members db cu [{ email := some e }]).1.members.filter
        (fun x => x.user_id = u.id) = [m] ∧
      m.invitation_status = .pending ∧
      (¬ ∃ x ∈ (invite_team_members db cu [{ email := some e }]).1.members,
        x.user_id = u.id ∧ x.invitation_status = .accepted) ∧
      ∃ resp,
        (register hash (invite_team_members db cu [{ email := some e }]).1 input).2 =
          .ok resp ∧
        resp.id = u.id ∧
        (register hash (invite_team_members db cu [{ email := some e }]).1 input).1.users =
          db.users ++ [applyRegistration hash input u] ∧
        resp.pending_invitations.map (fun i => (i.id, i.team_id)) = [(m.id, m.team_id)] := by
  -- facts about the bootstrapped database
  have hboot := get_or_create_default_team_shape db cu
  have hu0 : (get_or_create_default_team db cu).1.users = db.users := by
    rcases hboot with ⟨hdb, _, _⟩ | ⟨_, _, hdb⟩ <;> rw [hdb]
  have hn0 : (get_or_create_default_team db cu).1.next_user_id = db.next_user_id := by
    rcases hboot with ⟨hdb, _, _⟩ | ⟨_, _, hdb⟩ <;> rw [hdb]
  have hBex : ∃ B, (get_or_create_default_team db cu).1.members = db.members ++ B ∧
      ∀ x ∈ B, x.user_id = cu.id := by
    rcases hboot with ⟨hdb, _, _⟩ | ⟨_, _, hdb⟩
    · exact ⟨[], by rw [hdb]; simp, by simp⟩
    · refine ⟨[bootstrapMember db cu], by rw [hdb]; simp [bootstrapMember], ?_⟩
      intro x hx
      rw [List.mem_singleton] at hx
      subst hx
      rfl
  have hTmem : (get_or_create_default_team db cu).2 ∈
      (get_or_create_default_team db cu).1.teams := by
    rcases hboot with ⟨hdb, _, hmem⟩ | ⟨_, _, hdb⟩
    · rw [hdb]; exact hmem
    · rw [hdb]; exact List.mem_append_right _ (List.mem_singleton_self _)
  obtain ⟨B, hB, hBuser⟩ := hBex
  have hcu_lt : cu.id < db.next_user_id := hwf.1 cu hcu
  -- the rows the contact creates
  set uu : User := { id := (get_or_create_default_team db cu).1.next_user_id, email := some e, hashed_password := "temporary" } with huu
  set mm : TeamMember := { id := (get_or_create_default_team db cu).1.next_member_id, team_id := (get_or_create_default_team db cu).2.id, user_id := (get_or_create_default_team db cu).1.next_user_id, role := .member, invitation_status := .pending, invited_by_id := some cu.id, invited_at := (get_or_create_default_team db cu).1.clock } with hmm
  -- evaluate the single-contact batch
  have hse : strippedOpt (some e) = some e := by
    show (if pyStrip e = "" then none else some (pyStrip e)) = some e
    rw [hstrip, if_neg hne]
  have hf0 : findUserByEmail (get_or_create_default_team db cu).1 e = none := by
    unfold findUserByEmail at hnew ⊢
    rw [hu0]
    exact hnew
  have hproc : process_contact (get_or_create_default_team db cu).1 cu
      (get_or_create_default_team db cu).2 { email := some e } false =
      ⟨{ (get_or_create_default_team db cu).1 with
           users := (get_or_create_default_team db cu).1.users ++ [uu],
           members := (get_or_create_default_team db cu).1.members ++ [mm],
           next_user_id := (get_or_create_default_team db cu).1.next_user_id + 1,
           next_member_id := (get_or_create_default_team db cu).1.next_member_id + 1,
           clock := (get_or_create_default_team db cu).1.clock + 1 },
        some mm, none⟩ := by
    have hpn : strippedOpt (none : Option String) = none := rfl
    unfold process_contact resolveTargetTeam truthyTeamId
    dsimp only
    rw [hse]
    dsimp only
    rw [hf0]
    dsimp only
    unfold createPlaceholder
    dsimp only
    rw [hpn]
    dsimp only
    unfold finishContact
    rw [if_neg (by simp), if_neg (by simp), if_neg (by simp)]
  have hdb1 : (invite_team_members db cu [{ email := some e }]).1 =
      (process_contact (get_or_create_default_team db cu).1 cu
        (get_or_create_default_team db cu).2 { email := some e } false).db := by
    unfold invite_team_members invite_team_members_f
    dsimp only
    split <;> rfl
  have husers1 : (invite_team_members db cu [{ email := some e }]).1.users =
      db.users ++ [uu] := by
    rw [hdb1, hproc]
    dsimp only
    rw [hu0]
  have hmembers1 : (invite_team_members db cu [{ email := some e }]).1.members =
      (db.members ++ B) ++ [mm] := by
    rw [hdb1, hproc]
    dsimp only
    rw [hB]
  have hteams1 : (invite_team_members db cu [{ email := some e }]).1.teams =
      (get_or_create_default_team db cu).1.teams := by
    rw [hdb1, hproc]
  -- the membership rows of the new user are exactly the new pending row
  have hfilter : (invite_team_members db cu [{ email := some e }]).1.members.filter
      (fun x => x.user_id = uu.id) = [mm] := by
    rw [hmembers1, List.filter_append, List.filter_append]
    have h_old : db.members.filter (fun x => decide (x.user_id = uu.id)) = [] := by
      rw [List.filter_eq_nil_iff]
      intro x hx hc
      rw [decide_eq_true_eq] at hc
      have h1 : x.user_id < db.next_user_id := (hwf.2.2.1 x hx).2.1
      have h2 : uu.id = db.next_user_id := by rw [huu]; exact hn0
      omega
    have h_B : B.filter (fun x => decide (x.user_id = uu.id)) = [] := by
      rw [List.filter_eq_nil_iff]
      intro x hx hc
      rw [decide_eq_true_eq] at hc
      have h1 : x.user_id = cu.id := hBuser x hx
      have h2 : uu.id = db.next_user_id := by rw [huu]; exact hn0
      omega
    have h_m : ([mm]).filter (fun x => decide (x.user_id = uu.id)) = [mm] := by
      rw [List.filter_singleton]
      have hd : decide (mm.user_id = uu.id) = true := by
        rw [decide_eq_true_eq, hmm, huu]
      rw [hd]
      rfl
    rw [h_old, h_B, h_m]
    rfl
  refine ⟨uu, mm, husers1, by rw [huu]; exact hn0, rfl, rfl, hfilter, rfl, ?_, ?_⟩
  · rintro ⟨x, hx, hxu, hxacc⟩
    have hxm : x ∈ (invite_team_members db cu [{ email := some e }]).1.members.filter
        (fun x => x.user_id = uu.id) := List.mem_filter.2 ⟨hx, by rw [decide_eq_true_eq]; exact hxu⟩
    rw [hfilter, List.mem_singleton] at hxm
    subst hxm
    cases hxacc
  · -- registration claims the placeholder in place
    have hlookup : lookupExisting (invite_team_members db cu [{ email := some e }]).1
        input = some uu := by
      have htr : truthy (some e) = true := by
        show decide (e ≠ "") = true
        rw [decide_eq_true_eq]
        exact hne
      have hfind : findUserByEmail (invite_team_members db cu [{ email := some e }]).1 e =
          some uu := by
        unfold findUserByEmail at hnew ⊢
        rw [husers1, List.find?_append, hnew, Option.none_or,
          List.find?_cons_of_pos _ (by rw [decide_eq_true_eq])]
      unfold lookupExisting
      rw [hin]
      simp only [Option.getD_some]
      rw [if_pos htr, hfind]
    have hms : membershipsOf (invite_team_members db cu [{ email := some e }]).1 uu.id =
        [mm] := hfilter
    have hreg : register hash (invite_team_members db cu [{ email := some e }]).1 input =
        ({ (invite_team_members db cu [{ email := some e }]).1 with
             users := (invite_team_members db cu [{ email := some e }]).1.users.map
               (fun x => if x.id = uu.id then applyRegistration hash input uu else x) },
         .ok { id := (applyRegistration hash input uu).id,
               email := (applyRegistration hash input uu).email,
               name := (applyRegistration hash input uu).name,
               nickname := (applyRegistration hash input uu).nickname,
               country_code := (applyRegistration hash input uu).country_code,
               phone_number := (applyRegistration hash input uu).phone_number,
               pending_invitations := pendingInvitationsFor
                 { (invite_team_members db cu [{ email := some e }]).1 with
                     users := (invite_team_members db cu [{ email := some e }]).1.users.map
                       (fun x => if x.id = uu.id then applyRegistration hash input uu else x) }
                 (applyRegistration hash input uu).id }) := by
      unfold register
      rw [hlookup]
      dsimp only
      rw [hms]
      rw [if_neg (by simp)]
      have hany : (([mm]).any (fun m => decide (m.invitation_status ≠ .pending))) = true ↔ False := by
        simp [hmm]
      rw [if_neg (by rw [hany]; exact id)]
    have happly_id : (applyRegistration hash input uu).id = uu.id := rfl
    refine ⟨_, by rw [hreg], happly_id, ?_, ?_⟩
    · rw [hreg]
      dsimp only
      rw [husers1, List.map_append]
      have h_old : db.users.map (fun x => if x.id = uu.id then
          applyRegistration hash input uu else x) = db.users := by
        have := List.map_congr_left (l := db.users)
          (f := fun x => if x.id = uu.id then applyRegistration hash input uu else x)
          (g := id) ?_
        · rw [this, List.map_id]
        · intro x hx
          have h1 : x.id < db.next_user_id := hwf.1 x hx
          have h2 : uu.id = db.next_user_id := by rw [huu]; exact hn0
          show (if x.id = uu.id then applyRegistration hash input uu else x) = id x
          rw [if_neg (by omega)]
          rfl
      have h_new : ([uu]).map (fun x => if x.id = uu.id then
          applyRegistration hash input uu else x) = [applyRegistration hash input uu] := by
        simp
      rw [h_old, h_new]
    · dsimp only
      -- the projection over the updated database
      have hq : ((invite_team_members db cu [{ email := some e }]).1.members.filter
          (fun x => x.invitation_status = .pending ∧ x.user_id = uu.id)) = [mm] := by
        rw [hmembers1, List.filter_append, List.filter_append]
        have h_old : db.members.filter (fun x => decide (x.invitation_status = .pending ∧
            x.user_id = uu.id)) = [] := by
          rw [List.filter_eq_nil_iff]
          intro x hx hc
          rw [decide_eq_true_eq] at hc
          have h1 : x.user_id < db.next_user_id := (hwf.2.2.1 x hx).2.1
          have h2 : uu.id = db.next_user_id := by rw [huu]; exact hn0
          omega
        have h_B : B.filter (fun x => decide (x.invitation_status = .pending ∧
            x.user_id = uu.id)) = [] := by
          rw [List.filter_eq_nil_iff]
          intro x hx hc
          rw [decide_eq_true_eq] at hc
          have h1 : x.user_id = cu.id := hBuser x hx
          have h2 : uu.id = db.next_user_id := by rw [huu]; exact hn0
          omega
        have h_m : ([mm]).filter (fun x => decide (x.invitation_status = .pending ∧
            x.user_id = uu.id)) = [mm] := by
          rw [List.filter_singleton]
          have hd : decide (mm.invitation_status = .pending ∧ mm.user_id = uu.id) = true := by
            rw [decide_eq_true_eq]
            exact ⟨by rw [hmm], by rw [hmm, huu]⟩
          rw [hd]
          rfl
        rw [h_old, h_B, h_m]
        rfl
      have hT : ∃ t, (invite_team_members db cu [{ email := some e }]).1.teams.find?
          (fun t => t.id = mm.team_id) = some t := by
        rw [hteams1]
        have hs : ((get_or_create_default_team db cu).1.teams.find?
            (fun t => t.id = mm.team_id)).isSome := by
          rw [List.find?_isSome]
          exact ⟨(get_or_create_default_team db cu).2, hTmem, by rw [decide_eq_true_eq, hmm]⟩
        exact Option.isSome_iff_exists.1 hs
      obtain ⟨t0, ht0⟩ := hT
      unfold pendingInvitationsFor
      have hmem2 : ({ (invite_team_members db cu [{ email := some e }]).1 with
          users := (invite_team_members db cu [{ email := some e }]).1.users.map
            (fun x => if x.id = uu.id then applyRegistration hash input uu else x) } : DB).members =
          (invite_team_members db cu [{ email := some e }]).1.members := rfl
      rw [hmem2, happly_id, hq]
      rw [List.filterMap_cons]
      rw [show ({ (invite_team_members db cu [{ email := some e }]).1 with
          users := (invite_team_members db cu [{ email := some e }]).1.users.map
            (fun x => if x.id = uu.id then applyRegistration hash input uu else x) } : DB).teams =
          (invite_team_members db cu [{ email := some e }]).1.teams from rfl]
      rw [ht0]
      rfl

/-- Witness for C6: inviting the brand-new email "b@x" and then registering
with it, starting from a one-user database. -/
theorem placeholder_then_claim_witness :
    ∃ u m,
      (invite_team_members
          { users := [{ id := 1, email := some "a@x", hashed_password := "h", name := some "A" }], next_user_id := 2 }
          { id := 1, email := some "a@x", hashed_password := "h", name := some "A" }
          [{ email := some "b@x" }]).1.users =
        ({ users := [{ id := 1, email := some "a@x", hashed_password := "h", name := some "A" }], next_user_id := 2 } : DB).users ++ [u] ∧
      u.id = 2 ∧ u.email = some "b@x" ∧ u.hashed_password = "temporary" ∧
      (invite_team_members
          { users := [{ id := 1, email := some "a@x", hashed_password := "h", name := some "A" }], next_user_id := 2 }
          { id := 1, email := some "a@x", hashed_password := "h", name := some "A" }
          [{ email := some "b@x" }]).1.members.filter (fun x => x.user_id = u.id) = [m] ∧
      m.invitation_status = .pending ∧
      (¬ ∃ x ∈ (invite_team_members
          { users := [{ id := 1, email := some "a@x", hashed_password := "h", name := some "A" }], next_user_id := 2 }
          { id := 1, email := some "a@x", hashed_password := "h", name := some "A" }
          [{ email := some "b@x" }]).1.members,
        x.user_id = u.id ∧ x.invitation_status = .accepted) ∧
      ∃ resp,
        (register (fun p => "hashed:" ++ p)
            (invite_team_members
              { users := [{ id := 1, email := some "a@x", hashed_password := "h", name := some "A" }], next_user_id := 2 }
              { id := 1, email := some "a@x", hashed_password := "h", name := some "A" }
              [{ email := some "b@x" }]).1
            { email := some "b@x", password := "pw" }).2 = .ok resp ∧
        resp.id = u.id ∧
        (register (fun p => "hashed:" ++ p)
            (invite_team_members
              { users := [{ id := 1, email := some "a@x", hashed_password := "h", name := some "A" }], next_user_id := 2 }
              { id := 1, email := some "a@x", hashed_password := "h", name := some "A" }
              [{ email := some "b@x" }]).1
            { email := some "b@x", password := "pw" }).1.users =
          ({ users := [{ id := 1, email := some "a@x", hashed_password := "h", name := some "A" }], next_user_id := 2 } : DB).users ++
            [applyRegistration (fun p => "hashed:" ++ p) { email := some "b@x", password := "pw" } u] ∧
        resp.pending_invitations.map (fun i => (i.id, i.team_id)) = [(m.id, m.team_id)] :=
  placeholder_then_claim (fun p => "hashed:" ++ p)
    { users := [{ id := 1, email := some "a@x", hashed_password := "h", name := some "A" }], next_user_id := 2 }
    { id := 1, email := some "a@x", hashed_password := "h", name := some "A" }
    { email := some "b@x", password := "pw" } "b@x"
    (by decide) (by decide) (by decide) (by decide) (by decide) rfl

end TTS
